import Mathlib

/-!
# Event calculator of the BBS: a shallow embedding

The development embeds `controllers/event_calculator.go` and the event
constructors of `models/events.go` as pure Lean functions.

* A Go pointer `*ActualLRP` is an `Option ActualLRP`; `nil` is `none`.
* A Go slice is a `List`.
* `EmitEvents` hands events to two hubs and returns nothing; the embedding
  returns, for each hub, the sequence of events handed to it, in order.
* Where the source dereferences a pointer after a nil check (the arguments of
  `NewActualLRPCrashedEvent`, `ToActualLRPGroup`, the payload of the events the
  calculator builds) the embedding takes the record itself.
* `int32`/`int64` fields are only compared, never computed with, so they are
  plain integers.
* A second embedding of the calculator makes every read through a pointer
  explicit (`…Checked`, result `none` on a failure) and is compared with the
  first.
* `ConvergeTasks` is not among the sources; the sweep is modelled from §4.E of
  the specification, over a store that is a list of rows, and run on the
  fixture of its test.
-/

namespace BBS

/-! ## Data model (`models`) -/

/-- The identity of an LRP slot: process guid, index, domain. -/
structure ActualLRPKey where
  ProcessGuid : String
  Index : Int
  Domain : String
  deriving DecidableEq, Repr

/-- The identity of one instance: instance guid and cell id. -/
structure ActualLRPInstanceKey where
  InstanceGuid : String
  CellId : String
  deriving DecidableEq, Repr

/-- One port mapping of the network information. -/
structure PortMapping where
  ContainerPort : Nat
  HostPort : Nat
  deriving DecidableEq, Repr

/-- Network information of an instance. -/
structure ActualLRPNetInfo where
  Address : String
  Ports : List PortMapping
  InstanceAddress : String
  deriving DecidableEq, Repr

/-- The modification tag of a record. -/
structure ModificationTag where
  Epoch : String
  Index : Nat
  deriving DecidableEq, Repr

/-- The presence flag of a record. -/
inductive Presence where
  | Ordinary
  | Evacuating
  | Suspect
  deriving DecidableEq, Repr

/-- Modelled from the spec: the declaration of the `ActualLRP` record is not
among the sources; the fields are the ones §3 lists and `models/events.go`
copies (`ActualLRPKey`, `ActualLRPInstanceKey`, `ActualLRPNetInfo`,
`CrashCount`, `CrashReason`, `State`, `PlacementState`, `PlacementError`,
`Since`, `ModificationTag`) together with the presence flag. `State` is a Go
string. -/
structure ActualLRP where
  ActualLRPKey : ActualLRPKey
  ActualLRPInstanceKey : ActualLRPInstanceKey
  ActualLRPNetInfo : ActualLRPNetInfo
  CrashCount : Int
  CrashReason : String
  State : String
  PlacementState : String
  PlacementError : String
  Since : Int
  ModificationTag : ModificationTag
  Presence : Presence
  deriving DecidableEq, Repr

/-- Modelled from the spec: the state constant for `Unclaimed` (§3), whose
declaration is not among the sources. -/
def ActualLRPStateUnclaimed : String := "UNCLAIMED"

/-- Modelled from the spec: the state constant for `Claimed` (§3). -/
def ActualLRPStateClaimed : String := "CLAIMED"

/-- Modelled from the spec: the state constant for `Running` (§3). -/
def ActualLRPStateRunning : String := "RUNNING"

/-- Modelled from the spec: the state constant for `Crashed` (§3). -/
def ActualLRPStateCrashed : String := "CRASHED"

/-- Modelled from the spec: the derived group view of §3, with at most one
`Instance` slot and at most one `Evacuating` slot. -/
structure ActualLRPGroup where
  Instance : Option ActualLRP
  Evacuating : Option ActualLRP
  deriving DecidableEq, Repr

/-- Modelled from the spec: `ActualLRP.Equal` of §4.A, "equality defined
structurally", comparing every field including the presence; on pointers two
nils are equal and a nil equals no record. -/
def ActualLRP.Equal (this that : Option ActualLRP) : Bool :=
  decide (this = that)

/-- Modelled from the spec: `ActualLRPInstanceKey.Equal`, structural equality
of the two components of an instance key (§3, §4.A). -/
def ActualLRPInstanceKey.Equal (this that : ActualLRPInstanceKey) : Bool :=
  decide (this = that)

/-- Modelled from the spec: `ToActualLRPGroup` of §4.A, "yielding a one-slot
group per record": an Evacuating record fills the Evacuating slot, every other
record the Instance slot. -/
def ActualLRP.ToActualLRPGroup (actual : ActualLRP) : ActualLRPGroup :=
  match actual.Presence with
  | Presence.Evacuating => { Instance := none, Evacuating := some actual }
  | _ => { Instance := some actual, Evacuating := none }

/-- Modelled from the spec: `ActualLRPGroup.Resolve`, the record a group stands
for. Its source is absent; a one-slot group (the only kind `ToActualLRPGroup`
builds) resolves to the record in its slot; with both slots filled the Instance
record is taken when it is Running or Crashed and the Evacuating one otherwise;
an empty group resolves to nil. -/
def ActualLRPGroup.Resolve (group : ActualLRPGroup) : Option ActualLRP :=
  match group.Instance, group.Evacuating with
  | none, none => none
  | none, some e => some e
  | some i, none => some i
  | some i, some e =>
    if i.State = ActualLRPStateRunning ∨ i.State = ActualLRPStateCrashed then some i
    else some e

/-- Rank of a state inside one presence tier of §3:
Running > Claimed > Unclaimed > Crashed. -/
def stateRank (s : String) : Nat :=
  if s = ActualLRPStateRunning then 3
  else if s = ActualLRPStateClaimed then 2
  else if s = ActualLRPStateUnclaimed then 1
  else 0

/-- Rank of a presence among the records that may fill the Instance slot (§3):
Ordinary > Suspect. -/
def presenceRank (p : Presence) : Nat :=
  match p with
  | Presence.Ordinary => 1
  | _ => 0

/-- Modelled from the spec: the priority rule of §3 with the tie-break of §4.B
(most recent since-timestamp, then the smaller instance guid). -/
def hasHigherPriority (candidate current : ActualLRP) : Bool :=
  if presenceRank candidate.Presence ≠ presenceRank current.Presence then
    decide (presenceRank current.Presence < presenceRank candidate.Presence)
  else if stateRank candidate.State ≠ stateRank current.State then
    decide (stateRank current.State < stateRank candidate.State)
  else if candidate.Since ≠ current.Since then
    decide (current.Since < candidate.Since)
  else
    decide (candidate.ActualLRPInstanceKey.InstanceGuid
      < current.ActualLRPInstanceKey.InstanceGuid)

/-- One step of the group resolver: nil inputs are ignored, an Evacuating
record fills the Evacuating slot, any other record competes for the Instance
slot. -/
def resolveStep (group : ActualLRPGroup) (lrp : Option ActualLRP) : ActualLRPGroup :=
  match lrp with
  | none => group
  | some l =>
    if l.Presence = Presence.Evacuating then { group with Evacuating := some l }
    else
      match group.Instance with
      | none => { group with Instance := some l }
      | some cur =>
        if hasHigherPriority l cur then { group with Instance := some l } else group

/-- Modelled from the spec: the group resolver of §4.B (`ResolveActualLRPGroup`
is not among the sources). It folds a sequence of records into a group; the
empty sequence gives a group with both slots empty. -/
def ResolveActualLRPGroup (lrps : List (Option ActualLRP)) : ActualLRPGroup :=
  lrps.foldl resolveStep { Instance := none, Evacuating := none }

/-- The desired LRP carried by the desired-LRP events; the events only read its
process guid. -/
structure DesiredLRP where
  ProcessGuid : String
  deriving DecidableEq, Repr

/-- The state of a task. -/
inductive TaskState where
  | Invalid
  | Pending
  | Running
  | Completed
  | Resolving
  deriving DecidableEq, Repr

/-- Modelled from the spec: the task record of §3, whose declaration is not
among the sources. -/
structure Task where
  TaskGuid : String
  Domain : String
  State : TaskState
  CellId : String
  Failed : Bool
  FailureReason : String
  Result : String
  CreatedAt : Int
  UpdatedAt : Int
  FirstCompletedAt : Int
  deriving DecidableEq, Repr

/-- The part of a record a flattened changed event carries for each side
(`ActualLRPInfo` in `models/events.go`). -/
structure ActualLRPInfo where
  ActualLRPNetInfo : ActualLRPNetInfo
  CrashCount : Int
  CrashReason : String
  State : String
  PlacementState : String
  PlacementError : String
  Since : Int
  ModificationTag : ModificationTag
  deriving DecidableEq, Repr

/-- The event `NewFlattenedActualLRPChangedEvent` builds: two optional keys and
the two optional sides. -/
structure FlattenedActualLRPChangedEvent where
  ActualLrpKey : Option ActualLRPKey
  ActualLrpInstanceKey : Option ActualLRPInstanceKey
  Before : Option ActualLRPInfo
  After : Option ActualLRPInfo
  deriving DecidableEq, Repr

/-- The event `NewActualLRPCrashedEvent` builds. -/
structure ActualLRPCrashedEvent where
  ActualLRPKey : ActualLRPKey
  ActualLRPInstanceKey : ActualLRPInstanceKey
  CrashCount : Int
  CrashReason : String
  Since : Int
  deriving DecidableEq, Repr

/-- The `models.Event` interface as a tagged sum of its variants. The three
`ActualLRPInstance…` variants are the ones the calculator emits on the instance
hub; their declarations are not among the sources, and each carries the record
(or the before and after records) its constructor is given. -/
inductive Event where
  | DesiredLRPCreated (DesiredLrp : Option DesiredLRP)
  | DesiredLRPChanged (Before After : Option DesiredLRP)
  | DesiredLRPRemoved (DesiredLrp : Option DesiredLRP)
  | ActualLRPCreated (ActualLrpGroup : ActualLRPGroup)
  | ActualLRPChanged (Before After : ActualLRPGroup)
  | ActualLRPRemoved (ActualLrpGroup : ActualLRPGroup)
  | ActualLRPCrashed (ev : ActualLRPCrashedEvent)
  | ActualLRPInstanceCreated (ActualLrp : ActualLRP)
  | ActualLRPInstanceChanged (Before After : ActualLRP)
  | ActualLRPInstanceRemoved (ActualLrp : ActualLRP)
  | FlattenedActualLRPCreated (ActualLrp : Option ActualLRP)
  | FlattenedActualLRPChanged (ev : FlattenedActualLRPChangedEvent)
  | FlattenedActualLRPRemoved (ActualLrp : Option ActualLRP)
  | TaskCreated (Task : Option Task)
  | TaskChanged (Before After : Option Task)
  | TaskRemoved (Task : Option Task)
  deriving DecidableEq, Repr

/-! ## Event constructors (`models/events.go`) -/

/-- `NewActualLRPChangedEvent`. -/
def NewActualLRPChangedEvent (before after : ActualLRPGroup) : Event :=
  Event.ActualLRPChanged before after

/-- `NewActualLRPCrashedEvent`: the key, crash count, crash reason and since of
`after`, the instance key of `before`. -/
def NewActualLRPCrashedEvent (before after : ActualLRP) : Event :=
  Event.ActualLRPCrashed
    { ActualLRPKey := after.ActualLRPKey
      ActualLRPInstanceKey := before.ActualLRPInstanceKey
      CrashCount := after.CrashCount
      CrashReason := after.CrashReason
      Since := after.Since }

/-- `NewActualLRPRemovedEvent`. -/
def NewActualLRPRemovedEvent (actualLRPGroup : ActualLRPGroup) : Event :=
  Event.ActualLRPRemoved actualLRPGroup

/-- `NewActualLRPCreatedEvent`. -/
def NewActualLRPCreatedEvent (actualLRPGroup : ActualLRPGroup) : Event :=
  Event.ActualLRPCreated actualLRPGroup

/-- `NewActualLRPInstanceCreatedEvent`, used by the calculator: it wraps the
record. -/
def NewActualLRPInstanceCreatedEvent (actualLRP : ActualLRP) : Event :=
  Event.ActualLRPInstanceCreated actualLRP

/-- `NewActualLRPInstanceChangedEvent`, used by the calculator: it wraps the
two records. -/
def NewActualLRPInstanceChangedEvent (before after : ActualLRP) : Event :=
  Event.ActualLRPInstanceChanged before after

/-- `NewActualLRPInstanceRemovedEvent`, used by the calculator: it wraps the
record. -/
def NewActualLRPInstanceRemovedEvent (actualLRP : ActualLRP) : Event :=
  Event.ActualLRPInstanceRemoved actualLRP

/-! ## The calculator (`controllers/event_calculator.go`) -/

/-- `generateCrashedInstanceEvents`. -/
def generateCrashedInstanceEvents (before after : ActualLRP) : List Event :=
  [NewActualLRPCrashedEvent before after,
   NewActualLRPInstanceChangedEvent before after]

/-- `generateUpdateInstanceEvents`. -/
def generateUpdateInstanceEvents (before after : ActualLRP) : List Event :=
  [NewActualLRPInstanceChangedEvent before after]

/-- `generateUnclaimedInstanceEvents`. -/
def generateUnclaimedInstanceEvents (before after : ActualLRP) : List Event :=
  let events : List Event :=
    if after.CrashCount > before.CrashCount then [NewActualLRPCrashedEvent before after]
    else []
  events ++ [NewActualLRPInstanceCreatedEvent after,
             NewActualLRPInstanceRemovedEvent before]

/-- `generateLRPInstanceEvents`: the diff of one position of the instance
stream. The `switch` on the state of `after` has the cases Unclaimed, Crashed
and Running and a default that returns nil. -/
def generateLRPInstanceEvents (before after : Option ActualLRP) : List Event :=
  if ActualLRP.Equal before after then []
  else
    match after with
    | none =>
      match before with
      | some b => [NewActualLRPInstanceRemovedEvent b]
      | none => []
    | some a =>
      match before with
      | none => [NewActualLRPInstanceCreatedEvent a]
      | some b =>
        if a.State = ActualLRPStateUnclaimed then generateUnclaimedInstanceEvents b a
        else if a.State = ActualLRPStateCrashed then generateCrashedInstanceEvents b a
        else if a.State = ActualLRPStateRunning then generateUpdateInstanceEvents b a
        else []

/-- `generateCrashedGroupEvents`. -/
def generateCrashedGroupEvents (before after : ActualLRP) : List Event :=
  [NewActualLRPCrashedEvent before after,
   NewActualLRPChangedEvent before.ToActualLRPGroup after.ToActualLRPGroup]

/-- `generateUnclaimedGroupEvents`. -/
def generateUnclaimedGroupEvents (before after : ActualLRP) : List Event :=
  let events : List Event :=
    if after.CrashCount > before.CrashCount then [NewActualLRPCrashedEvent before after]
    else []
  events ++ [NewActualLRPChangedEvent before.ToActualLRPGroup after.ToActualLRPGroup]

/-- `generateUpdateGroupEvents`: a created and a removed event when the
instance keys differ, nil otherwise. -/
def generateUpdateGroupEvents (before after : ActualLRP) : List Event :=
  if !(ActualLRPInstanceKey.Equal after.ActualLRPInstanceKey before.ActualLRPInstanceKey) then
    [NewActualLRPCreatedEvent after.ToActualLRPGroup,
     NewActualLRPRemovedEvent before.ToActualLRPGroup]
  else []

/-- `generateLRPInstanceGroupEvents`: the diff of one slot of the group
stream. -/
def generateLRPInstanceGroupEvents (before after : Option ActualLRP) : List Event :=
  if ActualLRP.Equal before after then []
  else
    match after with
    | none =>
      match before with
      | some b => [NewActualLRPRemovedEvent b.ToActualLRPGroup]
      | none => []
    | some a =>
      match before with
      | none => [NewActualLRPCreatedEvent a.ToActualLRPGroup]
      | some b =>
        if a.State = ActualLRPStateUnclaimed then generateUnclaimedGroupEvents b a
        else if a.State = ActualLRPStateClaimed then generateUpdateGroupEvents b a
        else if a.State = ActualLRPStateRunning then generateUpdateGroupEvents b a
        else if a.State = ActualLRPStateCrashed then generateCrashedGroupEvents b a
        else []

/-- `getEventLRP`: the resulting record of an event (the created record, or the
new record of a changed event) and whether the event is a crashed event. Every
other event gives `(nil, false)`. -/
def getEventLRP (e : Event) : Option ActualLRP × Bool :=
  match e with
  | Event.ActualLRPCreated g => (g.Resolve, false)
  | Event.ActualLRPChanged _ after => (after.Resolve, false)
  | Event.ActualLRPInstanceCreated lrp => (some lrp, false)
  | Event.ActualLRPInstanceChanged _ after => (some after, false)
  | Event.ActualLRPCrashed _ => (none, true)
  | _ => (none, false)

/-- `shouldEventComeFirst`: whether `i` is to be emitted before `j`. -/
def shouldEventComeFirst (i j : Event) : Bool :=
  let (first, firstCrashed) := getEventLRP i
  let (second, secondCrashed) := getEventLRP j
  if firstCrashed then !secondCrashed
  else if secondCrashed then false
  else
    match first with
    | none => false
    | some f =>
      match second with
      | none => true
      | some s =>
        if f.State = ActualLRPStateRunning then
          decide (s.State ≠ ActualLRPStateRunning)
        else false

/-- One inner loop of the insertion sort: the new element, at the right end of
the sorted prefix, is swapped with its left neighbour as long as it is less
than it. The prefix is held reversed (nearest neighbour first); so is the
result. -/
def sinkLeft {α : Type} (less : α → α → Bool) (x : α) : List α → List α
  | [] => [x]
  | y :: rest => if less x y then y :: sinkLeft less x rest else x :: y :: rest

/-- The library call `sort.Slice(events, less)`: the slice is sorted in place
with respect to `less`, without a promise of stability. The embedding is the
insertion sort the library runs on short slices (`for i` over the slice,
`for j := i; j > 0 && less(j, j-1); j--` swapping `j` and `j-1`). The results
below read it in two ways only: as a permutation of its input that is ordered
by the rank `less` compares (`sortSlice_perm`, `sortSlice_sorted`), which any
sort gives, or on a few events of pairwise different rank, where the order is
forced. -/
def sortSlice {α : Type} (less : α → α → Bool) (l : List α) : List α :=
  (l.foldl (fun sortedRev x => sinkLeft less x sortedRev) []).reverse

/-- `generateLRPGroupEvents`: the diffs of the two slots, sorted. -/
def generateLRPGroupEvents (before after : ActualLRPGroup) : List Event :=
  let events := generateLRPInstanceGroupEvents before.Instance after.Instance
  let events := events ++ generateLRPInstanceGroupEvents before.Evacuating after.Evacuating
  sortSlice shouldEventComeFirst events

/-- `removeNilLRPs`. -/
def removeNilLRPs (lrps : List (Option ActualLRP)) : List (Option ActualLRP) :=
  lrps.filter (fun l => l.isSome)

/-- `stretchSlice`: when `before` is shorter than `after` it is replaced by a
copy padded with nils to the length of `after`; `after` is never changed. The
result is the new `before`. -/
def stretchSlice (before after : List (Option ActualLRP)) : List (Option ActualLRP) :=
  if before.length < after.length then
    before ++ List.replicate (after.length - before.length) none
  else before

/-- The events the loop `for i := range afterSet` of `EmitEvents` collects:
the diff of `beforeSet[i]` and `afterSet[i]` for every index of `afterSet`,
appended in order. The first list is at least as long as the second after
`stretchSlice`. -/
def collectInstanceEvents : List (Option ActualLRP) → List (Option ActualLRP) → List Event
  | b :: bs, a :: as => generateLRPInstanceEvents b a ++ collectInstanceEvents bs as
  | _, _ => []

/-- What one call of `EmitEvents` hands to the two hubs, in order. -/
structure Emitted where
  ActualLRPGroupHub : List Event
  ActualLRPInstanceHub : List Event
  deriving DecidableEq, Repr

/-- `EmitEvents`. -/
def EmitEvents (beforeSet afterSet : List (Option ActualLRP)) : Emitted :=
  let beforeGroup := ResolveActualLRPGroup beforeSet
  let afterGroup := ResolveActualLRPGroup (removeNilLRPs afterSet)
  let groupEvents := generateLRPGroupEvents beforeGroup afterGroup
  let beforeSet := stretchSlice beforeSet afterSet
  let events := collectInstanceEvents beforeSet afterSet
  { ActualLRPGroupHub := groupEvents
    ActualLRPInstanceHub := sortSlice shouldEventComeFirst events }

/-- `RecordChange`, the loop: the new slice and whether a match was found. -/
def recordChangeLoop (before after : Option ActualLRP) :
    List (Option ActualLRP) → List (Option ActualLRP) × Bool
  | [] => ([], false)
  | l :: rest =>
    let (newLRPs, found) := recordChangeLoop before after rest
    match l with
    | none => (none :: newLRPs, found)
    | some r =>
      match before with
      | some b =>
        if ActualLRPInstanceKey.Equal r.ActualLRPInstanceKey b.ActualLRPInstanceKey then
          (after :: newLRPs, true)
        else (some r :: newLRPs, found)
      | none => (some r :: newLRPs, found)

/-- `RecordChange`. -/
def RecordChange (before after : Option ActualLRP) (lrps : List (Option ActualLRP)) :
    List (Option ActualLRP) :=
  let (newLRPs, found) := recordChangeLoop before after lrps
  if !found then lrps ++ [after] else newLRPs

/-! ## Vocabulary of the properties -/

/-- Whether an event is a crashed event. -/
def Event.isCrashed : Event → Bool
  | Event.ActualLRPCrashed _ => true
  | _ => false

/-- Whether an event is a removal: `Removed` on the group hub,
`InstanceRemoved` on the instance hub. -/
def Event.isRemoval : Event → Bool
  | Event.ActualLRPRemoved _ => true
  | Event.ActualLRPInstanceRemoved _ => true
  | _ => false

/-- Whether an event is a creation: `Created` on the group hub,
`InstanceCreated` on the instance hub. -/
def Event.isCreation : Event → Bool
  | Event.ActualLRPCreated _ => true
  | Event.ActualLRPInstanceCreated _ => true
  | _ => false

/-- The rank `shouldEventComeFirst` sorts by: 0 for a crashed event, 1 for an
event whose resulting record is Running, 2 for an event with another resulting
record, 3 for an event without a resulting record. -/
def eventClass (e : Event) : Nat :=
  match getEventLRP e with
  | (_, true) => 0
  | (some l, false) => if l.State = ActualLRPStateRunning then 1 else 2
  | (none, false) => 3

/-- The non-nil records of a sequence. -/
def records (lrps : List (Option ActualLRP)) : List ActualLRP :=
  lrps.filterMap id

/-- The record an instance-stream event adds to a set of records, if any. -/
def evAdds : Event → Option ActualLRP
  | Event.ActualLRPInstanceCreated y => some y
  | Event.ActualLRPInstanceChanged _ y => some y
  | _ => none

/-- The record an instance-stream event takes out of a set of records, if
any. -/
def evRemoves : Event → Option ActualLRP
  | Event.ActualLRPInstanceRemoved x => some x
  | Event.ActualLRPInstanceChanged x _ => some x
  | _ => none

/-- The effect of one instance-stream event on a set of records (a list read as
a set), in the words of the conservation property: `InstanceCreated(Y)` adds
`Y`, `InstanceRemoved(X)` removes `X`, `InstanceChanged(X,Y)` replaces `X` by
`Y`, any other event changes nothing. -/
def applyInstanceEvent (s : List ActualLRP) : Event → List ActualLRP
  | Event.ActualLRPInstanceCreated y => y :: s
  | Event.ActualLRPInstanceRemoved x => s.filter (fun r => decide (r ≠ x))
  | Event.ActualLRPInstanceChanged x y => y :: s.filter (fun r => decide (r ≠ x))
  | _ => s

/-- The effect of a sequence of instance-stream events, applied in order. -/
def applyInstanceEvents (s : List ActualLRP) (events : List Event) : List ActualLRP :=
  events.foldl applyInstanceEvent s

/-! ## Sample records -/

/-- A record of the slot `("pg", 0, "dom")` with the given instance key, state,
crash count and presence. -/
def sampleLRP (guid cell state : String) (crashCount : Int) (p : Presence) : ActualLRP :=
  { ActualLRPKey := { ProcessGuid := "pg", Index := 0, Domain := "dom" }
    ActualLRPInstanceKey := { InstanceGuid := guid, CellId := cell }
    ActualLRPNetInfo := { Address := "", Ports := [], InstanceAddress := "" }
    CrashCount := crashCount
    CrashReason := ""
    State := state
    PlacementState := ""
    PlacementError := ""
    Since := 0
    ModificationTag := { Epoch := "", Index := 0 }
    Presence := p }

/-- An Unclaimed record with an empty instance key. -/
def lrpUnclaimed : ActualLRP := sampleLRP "" "" ActualLRPStateUnclaimed 0 Presence.Ordinary

/-- A Claimed record with instance key `("ig-1", "cell-1")`. -/
def lrpClaimed : ActualLRP := sampleLRP "ig-1" "cell-1" ActualLRPStateClaimed 0 Presence.Ordinary

/-- A Running record with instance key `("ig-1", "cell-1")`. -/
def lrpRunning : ActualLRP := sampleLRP "ig-1" "cell-1" ActualLRPStateRunning 0 Presence.Ordinary

/-- A Crashed record with instance key `("ig-1", "cell-1")` and crash count 1. -/
def lrpCrashed : ActualLRP := sampleLRP "ig-1" "cell-1" ActualLRPStateCrashed 1 Presence.Ordinary

/-- An Unclaimed record with an empty instance key and crash count 1. -/
def lrpRestarted : ActualLRP := sampleLRP "" "" ActualLRPStateUnclaimed 1 Presence.Ordinary

/-- A Suspect Running record with instance key `("ig-1", "cell-1")`. -/
def lrpSuspect : ActualLRP := sampleLRP "ig-1" "cell-1" ActualLRPStateRunning 0 Presence.Suspect

/-- An Ordinary Running record with instance key `("ig-2", "cell-2")`. -/
def lrpReplacement : ActualLRP := sampleLRP "ig-2" "cell-2" ActualLRPStateRunning 0 Presence.Ordinary

/-- Whether an event is a change: `Changed` on the group hub,
`InstanceChanged` on the instance hub. -/
def Event.isChange : Event → Bool
  | Event.ActualLRPChanged _ _ => true
  | Event.ActualLRPInstanceChanged _ _ => true
  | _ => false

/-- Whether an event is a created or changed event whose resulting record is
in state Running. -/
def Event.hasRunningResult (e : Event) : Bool :=
  (e.isCreation || e.isChange) &&
    match (getEventLRP e).1 with
    | some l => decide (l.State = ActualLRPStateRunning)
    | none => false

/-- Whether an event is a created or changed event whose resulting record is
in a state other than Running. -/
def Event.hasOtherResult (e : Event) : Bool :=
  (e.isCreation || e.isChange) &&
    match (getEventLRP e).1 with
    | some l => decide (l.State ≠ ActualLRPStateRunning)
    | none => false

/-- An Unclaimed record with an empty instance key and a placement error, as
`FailActualLRP` leaves it. -/
def lrpUnclaimedFailed : ActualLRP :=
  { lrpUnclaimed with PlacementError := "insufficient resources" }

/-- Whether the loop of `RecordChange` replaces an entry of the working set:
the entry is non-nil, `before` is non-nil and the two instance keys are
equal. -/
def isReplacedEntry (before l : Option ActualLRP) : Bool :=
  match l, before with
  | some r, some b =>
    ActualLRPInstanceKey.Equal r.ActualLRPInstanceKey b.ActualLRPInstanceKey
  | _, _ => false

/-! ## Event kinds (`models/events.go`) -/

/-- `EventTypeInvalid`. -/
def EventTypeInvalid : String := ""

/-- `EventTypeDesiredLRPCreated`. -/
def EventTypeDesiredLRPCreated : String := "desired_lrp_created"

/-- `EventTypeDesiredLRPChanged`. -/
def EventTypeDesiredLRPChanged : String := "desired_lrp_changed"

/-- `EventTypeDesiredLRPRemoved`. -/
def EventTypeDesiredLRPRemoved : String := "desired_lrp_removed"

/-- `EventTypeActualLRPCreated`. -/
def EventTypeActualLRPCreated : String := "actual_lrp_created"

/-- `EventTypeActualLRPChanged`. -/
def EventTypeActualLRPChanged : String := "actual_lrp_changed"

/-- `EventTypeActualLRPRemoved`. -/
def EventTypeActualLRPRemoved : String := "actual_lrp_removed"

/-- `EventTypeActualLRPCrashed`. -/
def EventTypeActualLRPCrashed : String := "actual_lrp_crashed"

/-- `EventTypeFlattenedActualLRPCreated`. -/
def EventTypeFlattenedActualLRPCreated : String := "flattened_actual_lrp_created"

/-- `EventTypeFlattenedActualLRPChanged`. -/
def EventTypeFlattenedActualLRPChanged : String := "flattened_actual_lrp_changed"

/-- `EventTypeFlattenedActualLRPRemoved`. -/
def EventTypeFlattenedActualLRPRemoved : String := "flattened_actual_lrp_removed"

/-- `EventTypeTaskCreated`. -/
def EventTypeTaskCreated : String := "task_created"

/-- `EventTypeTaskChanged`. -/
def EventTypeTaskChanged : String := "task_changed"

/-- `EventTypeTaskRemoved`. -/
def EventTypeTaskRemoved : String := "task_removed"

/-- The variants of `models.Event`, without their payload. -/
inductive EventVariant where
  | DesiredLRPCreated
  | DesiredLRPChanged
  | DesiredLRPRemoved
  | ActualLRPCreated
  | ActualLRPChanged
  | ActualLRPRemoved
  | ActualLRPCrashed
  | ActualLRPInstanceCreated
  | ActualLRPInstanceChanged
  | ActualLRPInstanceRemoved
  | FlattenedActualLRPCreated
  | FlattenedActualLRPChanged
  | FlattenedActualLRPRemoved
  | TaskCreated
  | TaskChanged
  | TaskRemoved
  deriving DecidableEq, Repr

/-- The variant of an event. -/
def Event.variant : Event → EventVariant
  | Event.DesiredLRPCreated _ => EventVariant.DesiredLRPCreated
  | Event.DesiredLRPChanged _ _ => EventVariant.DesiredLRPChanged
  | Event.DesiredLRPRemoved _ => EventVariant.DesiredLRPRemoved
  | Event.ActualLRPCreated _ => EventVariant.ActualLRPCreated
  | Event.ActualLRPChanged _ _ => EventVariant.ActualLRPChanged
  | Event.ActualLRPRemoved _ => EventVariant.ActualLRPRemoved
  | Event.ActualLRPCrashed _ => EventVariant.ActualLRPCrashed
  | Event.ActualLRPInstanceCreated _ => EventVariant.ActualLRPInstanceCreated
  | Event.ActualLRPInstanceChanged _ _ => EventVariant.ActualLRPInstanceChanged
  | Event.ActualLRPInstanceRemoved _ => EventVariant.ActualLRPInstanceRemoved
  | Event.FlattenedActualLRPCreated _ => EventVariant.FlattenedActualLRPCreated
  | Event.FlattenedActualLRPChanged _ => EventVariant.FlattenedActualLRPChanged
  | Event.FlattenedActualLRPRemoved _ => EventVariant.FlattenedActualLRPRemoved
  | Event.TaskCreated _ => EventVariant.TaskCreated
  | Event.TaskChanged _ _ => EventVariant.TaskChanged
  | Event.TaskRemoved _ => EventVariant.TaskRemoved

/-- The `EventType()` methods of `models/events.go`, one per variant; each
returns its constant whatever the payload. The methods of the three
`ActualLRPInstance…` variants are not among the sources: for them the result is
`none`. -/
def Event.EventType : Event → Option String
  | Event.DesiredLRPCreated _ => some EventTypeDesiredLRPCreated
  | Event.DesiredLRPChanged _ _ => some EventTypeDesiredLRPChanged
  | Event.DesiredLRPRemoved _ => some EventTypeDesiredLRPRemoved
  | Event.ActualLRPCreated _ => some EventTypeActualLRPCreated
  | Event.ActualLRPChanged _ _ => some EventTypeActualLRPChanged
  | Event.ActualLRPRemoved _ => some EventTypeActualLRPRemoved
  | Event.ActualLRPCrashed _ => some EventTypeActualLRPCrashed
  | Event.ActualLRPInstanceCreated _ => none
  | Event.ActualLRPInstanceChanged _ _ => none
  | Event.ActualLRPInstanceRemoved _ => none
  | Event.FlattenedActualLRPCreated _ => some EventTypeFlattenedActualLRPCreated
  | Event.FlattenedActualLRPChanged _ => some EventTypeFlattenedActualLRPChanged
  | Event.FlattenedActualLRPRemoved _ => some EventTypeFlattenedActualLRPRemoved
  | Event.TaskCreated _ => some EventTypeTaskCreated
  | Event.TaskChanged _ _ => some EventTypeTaskChanged
  | Event.TaskRemoved _ => some EventTypeTaskRemoved

/-- The kind strings of the wire taxonomy of §6:
`desired_lrp_{created,changed,removed}`,
`actual_lrp_{created,changed,removed,crashed}`,
`flattened_actual_lrp_{created,changed,removed}`,
`task_{created,changed,removed}`. -/
def wireTaxonomy : List String :=
  ["desired_lrp_created", "desired_lrp_changed", "desired_lrp_removed",
   "actual_lrp_created", "actual_lrp_changed", "actual_lrp_removed", "actual_lrp_crashed",
   "flattened_actual_lrp_created", "flattened_actual_lrp_changed",
   "flattened_actual_lrp_removed",
   "task_created", "task_changed", "task_removed"]

/-! ## The calculator on pointers

A second embedding of the calculator in which every read through a pointer is
explicit: an operation that reads a field of a nil record, or indexes a slice
out of range, gives `none`. It is compared with the embedding above. The group
resolver, absent from the sources, is the one of §4.B ("Nil inputs are
ignored"), which never fails. -/

/-- `NewActualLRPCrashedEvent` on pointers: it reads fields of `after` and of
`before`. -/
def NewActualLRPCrashedEventChecked (before after : Option ActualLRP) : Option Event := do
  let a ← after
  let b ← before
  pure (NewActualLRPCrashedEvent b a)

/-- `generateCrashedInstanceEvents` on pointers. -/
def generateCrashedInstanceEventsChecked (before after : Option ActualLRP) :
    Option (List Event) := do
  let crashed ← NewActualLRPCrashedEventChecked before after
  let b ← before
  let a ← after
  pure [crashed, NewActualLRPInstanceChangedEvent b a]

/-- `generateUpdateInstanceEvents` on pointers. -/
def generateUpdateInstanceEventsChecked (before after : Option ActualLRP) :
    Option (List Event) := do
  let b ← before
  let a ← after
  pure [NewActualLRPInstanceChangedEvent b a]

/-- `generateUnclaimedInstanceEvents` on pointers: it reads the crash count of
both records. -/
def generateUnclaimedInstanceEventsChecked (before after : Option ActualLRP) :
    Option (List Event) := do
  let a ← after
  let b ← before
  let events ←
    if a.CrashCount > b.CrashCount then
      (NewActualLRPCrashedEventChecked before after).map (fun c => [c])
    else some []
  pure (events ++ [NewActualLRPInstanceCreatedEvent a, NewActualLRPInstanceRemovedEvent b])

/-- `generateLRPInstanceEvents` on pointers: `after.State` is read after the
two nil checks. -/
def generateLRPInstanceEventsChecked (before after : Option ActualLRP) : Option (List Event) :=
  if ActualLRP.Equal before after then some []
  else if after = none then
    before.map (fun b => [NewActualLRPInstanceRemovedEvent b])
  else if before = none then
    after.map (fun a => [NewActualLRPInstanceCreatedEvent a])
  else do
    let a ← after
    if a.State = ActualLRPStateUnclaimed then generateUnclaimedInstanceEventsChecked before after
    else if a.State = ActualLRPStateCrashed then generateCrashedInstanceEventsChecked before after
    else if a.State = ActualLRPStateRunning then generateUpdateInstanceEventsChecked before after
    else some []

/-- `generateCrashedGroupEvents` on pointers. -/
def generateCrashedGroupEventsChecked (before after : Option ActualLRP) :
    Option (List Event) := do
  let crashed ← NewActualLRPCrashedEventChecked before after
  let b ← before
  let a ← after
  pure [crashed, NewActualLRPChangedEvent b.ToActualLRPGroup a.ToActualLRPGroup]

/-- `generateUnclaimedGroupEvents` on pointers. -/
def generateUnclaimedGroupEventsChecked (before after : Option ActualLRP) :
    Option (List Event) := do
  let a ← after
  let b ← before
  let events ←
    if a.CrashCount > b.CrashCount then
      (NewActualLRPCrashedEventChecked before after).map (fun c => [c])
    else some []
  pure (events ++ [NewActualLRPChangedEvent b.ToActualLRPGroup a.ToActualLRPGroup])

/-- `generateUpdateGroupEvents` on pointers: it reads the instance key of both
records. -/
def generateUpdateGroupEventsChecked (before after : Option ActualLRP) :
    Option (List Event) := do
  let a ← after
  let b ← before
  if !(ActualLRPInstanceKey.Equal a.ActualLRPInstanceKey b.ActualLRPInstanceKey) then
    pure [NewActualLRPCreatedEvent a.ToActualLRPGroup,
          NewActualLRPRemovedEvent b.ToActualLRPGroup]
  else pure []

/-- `generateLRPInstanceGroupEvents` on pointers. -/
def generateLRPInstanceGroupEventsChecked (before after : Option ActualLRP) :
    Option (List Event) :=
  if ActualLRP.Equal before after then some []
  else if after = none then
    before.map (fun b => [NewActualLRPRemovedEvent b.ToActualLRPGroup])
  else if before = none then
    after.map (fun a => [NewActualLRPCreatedEvent a.ToActualLRPGroup])
  else do
    let a ← after
    if a.State = ActualLRPStateUnclaimed then generateUnclaimedGroupEventsChecked before after
    else if a.State = ActualLRPStateClaimed then generateUpdateGroupEventsChecked before after
    else if a.State = ActualLRPStateRunning then generateUpdateGroupEventsChecked before after
    else if a.State = ActualLRPStateCrashed then generateCrashedGroupEventsChecked before after
    else some []

/-- `generateLRPGroupEvents` on pointers. -/
def generateLRPGroupEventsChecked (before after : ActualLRPGroup) : Option (List Event) := do
  let events ← generateLRPInstanceGroupEventsChecked before.Instance after.Instance
  let more ← generateLRPInstanceGroupEventsChecked before.Evacuating after.Evacuating
  pure (sortSlice shouldEventComeFirst (events ++ more))

/-- The loop `for i := range afterSet` of `EmitEvents` with the index made
explicit: at index `i` it reads `beforeSet[i]`, which fails when `beforeSet` has
no such position. -/
def collectInstanceEventsChecked (beforeSet : List (Option ActualLRP)) :
    Nat → List (Option ActualLRP) → Option (List Event)
  | _, [] => some []
  | i, a :: rest => do
    let b ← beforeSet[i]?
    let events ← generateLRPInstanceEventsChecked b a
    let more ← collectInstanceEventsChecked beforeSet (i + 1) rest
    pure (events ++ more)

/-- `EmitEvents` on pointers: `none` when the call fails. -/
def EmitEventsChecked (beforeSet afterSet : List (Option ActualLRP)) : Option Emitted := do
  let beforeGroup := ResolveActualLRPGroup beforeSet
  let afterGroup := ResolveActualLRPGroup (removeNilLRPs afterSet)
  let groupEvents ← generateLRPGroupEventsChecked beforeGroup afterGroup
  let events ← collectInstanceEventsChecked (stretchSlice beforeSet afterSet) 0 afterSet
  pure { ActualLRPGroupHub := groupEvents
         ActualLRPInstanceHub := sortSlice shouldEventComeFirst events }

/-- A record whose state is none of the four states. -/
def lrpInvalidState : ActualLRP := sampleLRP "ig-1" "cell-1" "INVALID" 0 Presence.Ordinary

/-- An Evacuating Running record with instance key `("ig-1", "cell-1")`, the
key of `lrpRunning`. -/
def lrpEvacuating : ActualLRP :=
  sampleLRP "ig-1" "cell-1" ActualLRPStateRunning 0 Presence.Evacuating

/-! ## Flattened and crashed events (`models/events.go`) -/

/-- The value of `new(ActualLRP)`: every field has its zero value. -/
def ActualLRP.zero : ActualLRP :=
  { ActualLRPKey := { ProcessGuid := "", Index := 0, Domain := "" }
    ActualLRPInstanceKey := { InstanceGuid := "", CellId := "" }
    ActualLRPNetInfo := { Address := "", Ports := [], InstanceAddress := "" }
    CrashCount := 0
    CrashReason := ""
    State := ""
    PlacementState := ""
    PlacementError := ""
    Since := 0
    ModificationTag := { Epoch := "", Index := 0 }
    Presence := Presence.Ordinary }

/-- The `ActualLRPInfo` literal both branches of
`NewFlattenedActualLRPChangedEvent` build from a record. -/
def ActualLRPInfo.ofLRP (lrp : ActualLRP) : ActualLRPInfo :=
  { ActualLRPNetInfo := lrp.ActualLRPNetInfo
    CrashCount := lrp.CrashCount
    CrashReason := lrp.CrashReason
    State := lrp.State
    PlacementState := lrp.PlacementState
    PlacementError := lrp.PlacementError
    Since := lrp.Since
    ModificationTag := lrp.ModificationTag }

/-- `NewFlattenedActualLRPChangedEvent`: nil when both records are nil;
otherwise the keys of `after` when it is non-nil and those of `before` when it
is not, and the info of each non-nil side. -/
def NewFlattenedActualLRPChangedEvent (before after : Option ActualLRP) :
    Option FlattenedActualLRPChangedEvent :=
  match before, after with
  | none, none => none
  | _, _ =>
    let eventBefore : Option ActualLRPInfo := before.map ActualLRPInfo.ofLRP
    match after with
    | some a =>
      some { ActualLrpKey := some a.ActualLRPKey
             ActualLrpInstanceKey := some a.ActualLRPInstanceKey
             Before := eventBefore
             After := some (ActualLRPInfo.ofLRP a) }
    | none =>
      some { ActualLrpKey := before.map (fun b => b.ActualLRPKey)
             ActualLrpInstanceKey := before.map (fun b => b.ActualLRPInstanceKey)
             Before := eventBefore
             After := none }

/-- The assignments `BeforeAndAfter` makes to one of its two fresh records from
an info. -/
def ActualLRP.withInfo (lrp : ActualLRP) (info : ActualLRPInfo) : ActualLRP :=
  { lrp with
    ActualLRPNetInfo := info.ActualLRPNetInfo
    CrashCount := info.CrashCount
    CrashReason := info.CrashReason
    State := info.State
    PlacementState := info.PlacementState
    PlacementError := info.PlacementError
    Since := info.Since
    ModificationTag := info.ModificationTag }

/-- `FlattenedActualLRPChangedEvent.BeforeAndAfter`: two nils for a nil event;
otherwise two fresh records that both receive the keys of the event, and each
the info of its side, where present. -/
def FlattenedActualLRPChangedEvent.BeforeAndAfter
    (event : Option FlattenedActualLRPChangedEvent) : Option ActualLRP × Option ActualLRP :=
  match event with
  | none => (none, none)
  | some ev =>
    let before := ActualLRP.zero
    let after := ActualLRP.zero
    let (before, after) :=
      match ev.ActualLrpKey with
      | some k => ({ before with ActualLRPKey := k }, { after with ActualLRPKey := k })
      | none => (before, after)
    let (before, after) :=
      match ev.ActualLrpInstanceKey with
      | some k =>
        ({ before with ActualLRPInstanceKey := k }, { after with ActualLRPInstanceKey := k })
      | none => (before, after)
    let before :=
      match ev.Before with
      | some info => before.withInfo info
      | none => before
    let after :=
      match ev.After with
      | some info => after.withInfo info
      | none => after
    (some before, some after)

/-- `ActualLRPCrashedEvent.Key`. -/
def ActualLRPCrashedEvent.Key (event : ActualLRPCrashedEvent) : String :=
  event.ActualLRPInstanceKey.InstanceGuid

/-- `NewFlattenedActualLRPCrashedEvent`. -/
def NewFlattenedActualLRPCrashedEvent (before after : ActualLRP) : Event :=
  Event.ActualLRPCrashed
    { ActualLRPKey := after.ActualLRPKey
      ActualLRPInstanceKey := before.ActualLRPInstanceKey
      CrashCount := after.CrashCount
      CrashReason := after.CrashReason
      Since := after.Since }

/-! ## Task convergence (§4.E)

`ConvergeTasks` is not among the sources; only its test
(`db/sqldb/task_convergence_test.go`) is. The sweep is modelled from the
classification table of §4.E, over a store that is a list of task rows. -/

/-- Modelled from the spec: a persisted task row, absent from the sources: the
task and whether its task-definition payload can be decoded ("unreadable" in
§4.E means it cannot). -/
structure TaskRow where
  Task : Task
  DefinitionReadable : Bool
  deriving DecidableEq, Repr

/-- Modelled from the spec: an entry of `tasksToAuction` (§4.E), absent from
the sources: the request built for a task, identified by the guid and the
domain of the task. -/
structure AuctionRequest where
  TaskGuid : String
  Domain : String
  deriving DecidableEq, Repr

/-- Modelled from the spec: `TaskConvergenceResult` of §4.E,
`{ tasksToAuction, tasksToComplete, events }`. -/
structure TaskConvergenceResult where
  TasksToAuction : List AuctionRequest
  TasksToComplete : List Task
  Events : List Event
  deriving DecidableEq, Repr

/-- Modelled from the spec: the actions of the classification table of §4.E. -/
inductive TaskAction where
  | Leave
  | DeleteSilently
  | Delete
  | FailExpiredPending
  | Auction
  | FailCellDisappeared
  | Complete
  | Demote
  deriving DecidableEq, Repr

/-- Modelled from the spec: the per-task classification table of §4.E, read top
to bottom within each state, with `age = now − updated-at`. -/
def classifyTask (now : Int) (cellSet : List String)
    (kickInterval expirePendingInterval expireCompletedInterval : Int) (row : TaskRow) :
    TaskAction :=
  let age := now - row.Task.UpdatedAt
  match row.Task.State with
  | TaskState.Pending =>
    if !row.DefinitionReadable then TaskAction.DeleteSilently
    else if age ≥ expirePendingInterval then TaskAction.FailExpiredPending
    else if age ≥ kickInterval then TaskAction.Auction
    else TaskAction.Leave
  | TaskState.Running =>
    if !row.DefinitionReadable then TaskAction.Delete
    else if row.Task.CellId ∉ cellSet then TaskAction.FailCellDisappeared
    else TaskAction.Leave
  | TaskState.Completed =>
    if !row.DefinitionReadable then TaskAction.Delete
    else if age ≥ expireCompletedInterval then TaskAction.Delete
    else if age ≥ kickInterval then TaskAction.Complete
    else TaskAction.Leave
  | TaskState.Resolving =>
    if !row.DefinitionReadable then TaskAction.Delete
    else if age ≥ expireCompletedInterval then TaskAction.Delete
    else if age ≥ kickInterval then TaskAction.Demote
    else TaskAction.Leave
  | TaskState.Invalid => TaskAction.Leave

/-- Modelled from the spec: the corrective transition to Completed of §4.E
(`failed = true`, the failure reason, `updated-at` and `first-completed-at` set
to `now`); the result is emptied, as the test asserts for both failures. -/
def failTask (task : Task) (now : Int) (reason : String) : Task :=
  { task with
    State := TaskState.Completed
    Failed := true
    FailureReason := reason
    Result := ""
    UpdatedAt := now
    FirstCompletedAt := now }

/-- Modelled from the spec: the demotion of a Resolving task back to Completed
(§4.E). -/
def demoteTask (task : Task) : Task :=
  { task with State := TaskState.Completed }

/-- The failure reason of a Pending task that expired. -/
def reasonNotStarted : String := "not started within time limit"

/-- The failure reason of a Running task whose cell is gone. -/
def reasonCellDisappeared : String := "cell disappeared before completion"

/-- Modelled from the spec: what a convergence sweep leaves behind: the store
after the sweep, the `TaskConvergenceResult`, and the deltas reported for the
counters `ConvergenceTasksKicked` and `ConvergenceTasksPruned`. -/
structure ConvergenceOutcome where
  Store : List TaskRow
  Result : TaskConvergenceResult
  TasksKicked : Nat
  TasksPruned : Nat
  deriving DecidableEq, Repr

/-- Modelled from the spec: the delta a classified task adds to
`ConvergenceTasksKicked`, by the Metrics paragraph of §4.E and invariant 10 of
§8: one for an entry of `tasksToAuction`, one for an entry of
`tasksToComplete`, one for a demoted Resolving task. A demoted task is also
handed over for completion, so it adds two. -/
def kickedDelta : TaskAction → Nat
  | TaskAction.Auction => 1
  | TaskAction.Complete => 1
  | TaskAction.Demote => 2
  | _ => 0

/-- Modelled from the spec: the delta a classified task adds to
`ConvergenceTasksPruned`, by the Metrics paragraph of §4.E: "count of
deletions + fail-expirations (every corrective mutation other than pure
kick)": one for a deleted task and one for a failed task. -/
def prunedDelta : TaskAction → Nat
  | TaskAction.DeleteSilently => 1
  | TaskAction.Delete => 1
  | TaskAction.FailExpiredPending => 1
  | TaskAction.FailCellDisappeared => 1
  | _ => 0

/-- Modelled from the spec: the effect of the sweep on one row, by the "Action"
and "Event" columns of the table of §4.E. -/
def convergeRow (now : Int) (cellSet : List String)
    (kickInterval expirePendingInterval expireCompletedInterval : Int) (row : TaskRow) :
    ConvergenceOutcome :=
  let action :=
    classifyTask now cellSet kickInterval expirePendingInterval expireCompletedInterval row
  let outcome (store : List TaskRow) (auction : List AuctionRequest) (complete : List Task)
      (events : List Event) : ConvergenceOutcome :=
    { Store := store
      Result := { TasksToAuction := auction, TasksToComplete := complete, Events := events }
      TasksKicked := kickedDelta action
      TasksPruned := prunedDelta action }
  match action with
  | TaskAction.Leave => outcome [row] [] [] []
  | TaskAction.DeleteSilently => outcome [] [] [] []
  | TaskAction.Delete => outcome [] [] [] [Event.TaskRemoved (some row.Task)]
  | TaskAction.FailExpiredPending =>
    let after := failTask row.Task now reasonNotStarted
    outcome [{ row with Task := after }] [] []
      [Event.TaskChanged (some row.Task) (some after)]
  | TaskAction.Auction =>
    outcome [row] [{ TaskGuid := row.Task.TaskGuid, Domain := row.Task.Domain }] [] []
  | TaskAction.FailCellDisappeared =>
    let after := failTask row.Task now reasonCellDisappeared
    outcome [{ row with Task := after }] [] []
      [Event.TaskChanged (some row.Task) (some after)]
  | TaskAction.Complete => outcome [row] [] [row.Task] []
  | TaskAction.Demote =>
    let after := demoteTask row.Task
    outcome [{ row with Task := after }] [] [after]
      [Event.TaskChanged (some row.Task) (some after)]

/-- The outcome of a sweep over no row. -/
def ConvergenceOutcome.empty : ConvergenceOutcome :=
  { Store := []
    Result := { TasksToAuction := [], TasksToComplete := [], Events := [] }
    TasksKicked := 0
    TasksPruned := 0 }

/-- The outcome of one part of a sweep followed by another. -/
def ConvergenceOutcome.append (a b : ConvergenceOutcome) : ConvergenceOutcome :=
  { Store := a.Store ++ b.Store
    Result :=
      { TasksToAuction := a.Result.TasksToAuction ++ b.Result.TasksToAuction
        TasksToComplete := a.Result.TasksToComplete ++ b.Result.TasksToComplete
        Events := a.Result.Events ++ b.Result.Events }
    TasksKicked := a.TasksKicked + b.TasksKicked
    TasksPruned := a.TasksPruned + b.TasksPruned }

/-- Modelled from the spec: `ConvergeTasks` of §4.E and §6, absent from the
sources: one sweep over the rows of the store at the time `now` of the clock,
each row classified and treated on its own. -/
def ConvergeTasks (store : List TaskRow) (now : Int) (cellSet : List String)
    (kickInterval expirePendingInterval expireCompletedInterval : Int) : ConvergenceOutcome :=
  match store with
  | [] => ConvergenceOutcome.empty
  | row :: rest =>
    (convergeRow now cellSet kickInterval expirePendingInterval expireCompletedInterval
      row).append
      (ConvergeTasks rest now cellSet kickInterval expirePendingInterval
        expireCompletedInterval)

/-- The errors of a lookup in the store. -/
inductive StoreError where
  | ErrResourceNotFound
  | ErrDeserialize
  deriving DecidableEq, Repr

/-- Modelled from the spec: `TaskByGuid`, the lookup the test uses after the
sweep: the distinct "not found" error of §6 when no row has the guid, a decode
error when the definition of the row is unreadable, the task otherwise. -/
def TaskByGuid (store : List TaskRow) (guid : String) : Except StoreError Task :=
  match store.find? (fun r => decide (r.Task.TaskGuid = guid)) with
  | none => Except.error StoreError.ErrResourceNotFound
  | some r =>
    if r.DefinitionReadable then Except.ok r.Task else Except.error StoreError.ErrDeserialize

/-- The number of tasks a sweep demotes from Resolving to Completed. -/
def demotedCount (now : Int) (cellSet : List String)
    (kickInterval expirePendingInterval expireCompletedInterval : Int)
    (store : List TaskRow) : Nat :=
  store.countP (fun row =>
    decide (classifyTask now cellSet kickInterval expirePendingInterval
      expireCompletedInterval row = TaskAction.Demote))

/-- The number of tasks a sweep fails: expired Pending tasks and Running tasks
whose cell is gone. -/
def failedCount (now : Int) (cellSet : List String)
    (kickInterval expirePendingInterval expireCompletedInterval : Int)
    (store : List TaskRow) : Nat :=
  store.countP (fun row =>
    decide (classifyTask now cellSet kickInterval expirePendingInterval
        expireCompletedInterval row = TaskAction.FailExpiredPending) ||
    decide (classifyTask now cellSet kickInterval expirePendingInterval
        expireCompletedInterval row = TaskAction.FailCellDisappeared))

/-! ### The fixture of the test -/

/-- One second, in the nanoseconds of the timestamps. -/
def second : Int := 1000000000

/-- The time at which the fixture of the test creates its fresh tasks. -/
def fixtureBase : Int := 10000 * second

/-- The clock when `ConvergeTasks` runs in the test: one second later. -/
def fixtureNow : Int := fixtureBase + second

/-- `kickTasksDuration` of the test: 10 seconds. -/
def fixtureKick : Int := 10 * second

/-- `expirePendingTaskDuration` of the test: 30 seconds. -/
def fixtureExpirePending : Int := 30 * second

/-- `expireCompletedTaskDuration` of the test: one hour. -/
def fixtureExpireCompleted : Int := 3600 * second

/-- A row of the fixture: a task of domain `"my-domain"` in the given state,
last written `ago` before the base time, with a readable or unreadable
definition. -/
def fixtureRow (guid : String) (state : TaskState) (cell : String) (ago : Int)
    (readable : Bool) : TaskRow :=
  { Task :=
      { TaskGuid := guid
        Domain := "my-domain"
        State := state
        CellId := cell
        Failed := false
        FailureReason := ""
        Result := ""
        CreatedAt := fixtureBase - ago
        UpdatedAt := fixtureBase - ago
        FirstCompletedAt :=
          if state = TaskState.Completed ∨ state = TaskState.Resolving then fixtureBase - ago
          else 0 }
    DefinitionReadable := readable }

/-- The eighteen tasks the `BeforeEach` of the test stores, in order. -/
def fixtureStore : List TaskRow :=
  [ fixtureRow "pending-expired-task" TaskState.Pending "" fixtureExpirePending true,
    fixtureRow "another-pending-expired-task" TaskState.Pending "" fixtureExpirePending true,
    fixtureRow "pending-invalid-task" TaskState.Pending "" fixtureExpirePending false,
    fixtureRow "pending-kickable-task" TaskState.Pending "" fixtureKick true,
    fixtureRow "pending-kickable-invalid-task" TaskState.Pending "" fixtureKick false,
    fixtureRow "pending-task" TaskState.Pending "" 0 true,
    fixtureRow "running-task-no-cell" TaskState.Running "non-existant-cell" 0 true,
    fixtureRow "invalid-running-task-no-cell" TaskState.Running "non-existant-cell" 0 false,
    fixtureRow "running-task" TaskState.Running "existing-cell" 0 true,
    fixtureRow "completed-expired-task" TaskState.Completed "existing-cell"
      fixtureExpireCompleted true,
    fixtureRow "invalid-completed-expired-task" TaskState.Completed "existing-cell"
      fixtureExpireCompleted false,
    fixtureRow "completed-kickable-task" TaskState.Completed "existing-cell" fixtureKick true,
    fixtureRow "completed-kickable-invalid-task" TaskState.Completed "existing-cell"
      fixtureKick false,
    fixtureRow "completed-task" TaskState.Completed "existing-cell" 0 true,
    fixtureRow "resolving-expired-task" TaskState.Resolving "existing-cell"
      fixtureExpireCompleted true,
    fixtureRow "resolving-kickable-task" TaskState.Resolving "existing-cell" fixtureKick true,
    fixtureRow "invalid-resolving-kickable-task" TaskState.Resolving "existing-cell"
      fixtureKick false,
    fixtureRow "resolving-task" TaskState.Resolving "existing-cell" 0 true ]

/-- The cell set of the test. -/
def fixtureCells : List String := ["existing-cell"]

/-- The sweep of the test over its fixture. -/
def fixtureOutcome : ConvergenceOutcome :=
  ConvergeTasks fixtureStore fixtureNow fixtureCells fixtureKick fixtureExpirePending
    fixtureExpireCompleted

/-! ## The library sort -/

theorem sinkLeft_perm {α : Type} (less : α → α → Bool) (x : α) (l : List α) :
    (sinkLeft less x l).Perm (x :: l) := by
  induction l with
  | nil => exact List.Perm.refl _
  | cons y rest ih =>
    unfold sinkLeft
    split
    · exact ((List.Perm.cons y ih).trans (List.Perm.swap x y rest))
    · exact List.Perm.refl _

theorem foldl_sinkLeft_perm {α : Type} (less : α → α → Bool) (l acc : List α) :
    (l.foldl (fun sortedRev x => sinkLeft less x sortedRev) acc).Perm (l ++ acc) := by
  induction l generalizing acc with
  | nil => exact List.Perm.refl _
  | cons x rest ih =>
    simp only [List.foldl_cons, List.cons_append]
    refine (ih (sinkLeft less x acc)).trans ?_
    refine (List.Perm.append_left rest (sinkLeft_perm less x acc)).trans ?_
    exact List.perm_middle

/-- The sorted slice holds the same elements as the input. -/
theorem sortSlice_perm {α : Type} (less : α → α → Bool) (l : List α) :
    (sortSlice less l).Perm l := by
  unfold sortSlice
  refine (List.reverse_perm _).trans ?_
  simpa using foldl_sinkLeft_perm less l []

theorem sinkLeft_pairwise {α : Type} (less : α → α → Bool) (key : α → Nat)
    (hless : ∀ a b, less a b = decide (key a < key b)) (x : α) (l : List α)
    (hl : l.Pairwise (fun a b => key b ≤ key a)) :
    (sinkLeft less x l).Pairwise (fun a b => key b ≤ key a) := by
  induction l with
  | nil => simp [sinkLeft]
  | cons y rest ih =>
    have hy : ∀ z ∈ rest, key z ≤ key y := (List.pairwise_cons.mp hl).1
    have hrest := (List.pairwise_cons.mp hl).2
    unfold sinkLeft
    by_cases hxy : key x < key y
    · simp only [hless, hxy, decide_True, if_true]
      refine List.pairwise_cons.mpr ⟨?_, ih hrest⟩
      intro z hz
      rcases (List.mem_cons.mp ((sinkLeft_perm less x rest).subset hz)) with h | h
      · subst h; exact Nat.le_of_lt hxy
      · exact hy z h
    · simp only [hless, hxy, decide_False]
      refine List.pairwise_cons.mpr ⟨?_, hl⟩
      intro z hz
      rcases List.mem_cons.mp hz with h | h
      · subst h; exact Nat.le_of_not_lt hxy
      · exact Nat.le_trans (hy z h) (Nat.le_of_not_lt hxy)

theorem foldl_sinkLeft_pairwise {α : Type} (less : α → α → Bool) (key : α → Nat)
    (hless : ∀ a b, less a b = decide (key a < key b)) (l acc : List α)
    (hacc : acc.Pairwise (fun a b => key b ≤ key a)) :
    (l.foldl (fun sortedRev x => sinkLeft less x sortedRev) acc).Pairwise
      (fun a b => key b ≤ key a) := by
  induction l generalizing acc with
  | nil => exact hacc
  | cons x rest ih =>
    simp only [List.foldl_cons]
    exact ih _ (sinkLeft_pairwise less key hless x acc hacc)

/-- When `less` compares a rank, the sorted slice is ordered by that rank. -/
theorem sortSlice_sorted {α : Type} (less : α → α → Bool) (key : α → Nat)
    (hless : ∀ a b, less a b = decide (key a < key b)) (l : List α) :
    (sortSlice less l).Pairwise (fun a b => key a ≤ key b) := by
  unfold sortSlice
  rw [List.pairwise_reverse]
  exact foldl_sinkLeft_pairwise less key hless l [] List.Pairwise.nil

/-- A slice already ordered by the rank is left as it is. -/
theorem sinkLeft_of_le {α : Type} (less : α → α → Bool) (key : α → Nat)
    (hless : ∀ a b, less a b = decide (key a < key b)) (x : α) (l : List α)
    (h : ∀ z ∈ l, key z ≤ key x) : sinkLeft less x l = x :: l := by
  cases l with
  | nil => rfl
  | cons y rest =>
    have : ¬ key x < key y := Nat.not_lt.mpr (h y (List.mem_cons_self y rest))
    simp [sinkLeft, hless, this]

/-! ## The comparator -/

theorem state_constants_distinct :
    ActualLRPStateUnclaimed ≠ ActualLRPStateClaimed ∧
    ActualLRPStateUnclaimed ≠ ActualLRPStateRunning ∧
    ActualLRPStateUnclaimed ≠ ActualLRPStateCrashed ∧
    ActualLRPStateClaimed ≠ ActualLRPStateRunning ∧
    ActualLRPStateClaimed ≠ ActualLRPStateCrashed ∧
    ActualLRPStateRunning ≠ ActualLRPStateCrashed := by
  decide

/-- The comparator is the strict order of the ranks. -/
theorem shouldEventComeFirst_eq_class (i j : Event) :
    shouldEventComeFirst i j = decide (eventClass i < eventClass j) := by
  unfold shouldEventComeFirst eventClass
  rcases getEventLRP i with ⟨f, fc⟩
  rcases getEventLRP j with ⟨s, sc⟩
  cases fc <;> cases sc <;> cases f <;> cases s <;> simp <;> split_ifs <;> simp_all

theorem foldl_sinkLeft_of_sorted {α : Type} (less : α → α → Bool) (key : α → Nat)
    (hless : ∀ a b, less a b = decide (key a < key b)) (l acc : List α)
    (hacc : ∀ x ∈ l, ∀ z ∈ acc, key z ≤ key x)
    (hl : l.Pairwise (fun a b => key a ≤ key b)) :
    l.foldl (fun sortedRev x => sinkLeft less x sortedRev) acc = l.reverse ++ acc := by
  induction l generalizing acc with
  | nil => rfl
  | cons x rest ih =>
    have hx : ∀ z ∈ rest, key x ≤ key z := (List.pairwise_cons.mp hl).1
    simp only [List.foldl_cons]
    rw [sinkLeft_of_le less key hless x acc (fun z hz => hacc x (List.mem_cons_self x rest) z hz)]
    rw [ih (x :: acc) _ (List.pairwise_cons.mp hl).2]
    · simp
    · intro y hy z hz
      rcases List.mem_cons.mp hz with h | h
      · subst h; exact hx y hy
      · exact hacc y (List.mem_cons_of_mem x hy) z h

/-- A slice that is already in rank order comes back unchanged. -/
theorem sortSlice_of_sorted {α : Type} (less : α → α → Bool) (key : α → Nat)
    (hless : ∀ a b, less a b = decide (key a < key b)) (l : List α)
    (hl : l.Pairwise (fun a b => key a ≤ key b)) : sortSlice less l = l := by
  unfold sortSlice
  rw [foldl_sinkLeft_of_sorted less key hless l [] (by simp) hl]
  simp

theorem resolve_toActualLRPGroup (lrp : ActualLRP) :
    lrp.ToActualLRPGroup.Resolve = some lrp := by
  unfold ActualLRP.ToActualLRPGroup ActualLRPGroup.Resolve
  cases lrp.Presence <;> rfl

@[simp] theorem eventClass_crashed (x y : ActualLRP) :
    eventClass (NewActualLRPCrashedEvent x y) = 0 := rfl

@[simp] theorem eventClass_instanceCreated (y : ActualLRP) :
    eventClass (NewActualLRPInstanceCreatedEvent y)
      = if y.State = ActualLRPStateRunning then 1 else 2 := rfl

@[simp] theorem eventClass_instanceChanged (x y : ActualLRP) :
    eventClass (NewActualLRPInstanceChangedEvent x y)
      = if y.State = ActualLRPStateRunning then 1 else 2 := rfl

@[simp] theorem eventClass_instanceRemoved (x : ActualLRP) :
    eventClass (NewActualLRPInstanceRemovedEvent x) = 3 := rfl

@[simp] theorem eventClass_created (y : ActualLRP) :
    eventClass (NewActualLRPCreatedEvent y.ToActualLRPGroup)
      = if y.State = ActualLRPStateRunning then 1 else 2 := by
  simp [eventClass, NewActualLRPCreatedEvent, getEventLRP, resolve_toActualLRPGroup]

@[simp] theorem eventClass_changed (g : ActualLRPGroup) (y : ActualLRP) :
    eventClass (NewActualLRPChangedEvent g y.ToActualLRPGroup)
      = if y.State = ActualLRPStateRunning then 1 else 2 := by
  simp [eventClass, NewActualLRPChangedEvent, getEventLRP, resolve_toActualLRPGroup]

@[simp] theorem eventClass_removed (g : ActualLRPGroup) :
    eventClass (NewActualLRPRemovedEvent g) = 3 := rfl

theorem eventClass_le_three (e : Event) : eventClass e ≤ 3 := by
  unfold eventClass
  split
  · exact Nat.zero_le _
  · split <;> decide
  · exact Nat.le_refl _

theorem eventClass_eq_zero_iff (e : Event) : eventClass e = 0 ↔ e.isCrashed = true := by
  cases e <;> simp [eventClass, getEventLRP, Event.isCrashed] <;> split <;> simp_all <;> split <;> simp

/-- The sort of the calculator, by rank. -/
theorem sortSlice_events_of_sorted (l : List Event)
    (hl : l.Pairwise (fun a b => eventClass a ≤ eventClass b)) :
    sortSlice shouldEventComeFirst l = l :=
  sortSlice_of_sorted shouldEventComeFirst eventClass shouldEventComeFirst_eq_class l hl

/-! ## The Unclaimed rule on the instance hub -/

/-- Claim C2: for non-nil records `X ≠ Y` with `Y.State = Unclaimed`,
`EmitEvents([X],[Y])` emits on the instance hub `Crashed(X,Y)` exactly when
`Y.CrashCount > X.CrashCount`, then `InstanceCreated(Y)`, then
`InstanceRemoved(X)`, and nothing else. -/
theorem emitEvents_unclaimed_instance_hub (X Y : ActualLRP) (hne : X ≠ Y)
    (hY : Y.State = ActualLRPStateUnclaimed) :
    (EmitEvents [some X] [some Y]).ActualLRPInstanceHub =
      (if Y.CrashCount > X.CrashCount then [NewActualLRPCrashedEvent X Y] else []) ++
        [NewActualLRPInstanceCreatedEvent Y, NewActualLRPInstanceRemovedEvent X] := by
  have hrun : Y.State ≠ ActualLRPStateRunning := by
    rw [hY]; exact state_constants_distinct.2.1
  have hgen : collectInstanceEvents (stretchSlice [some X] [some Y]) [some Y] =
      (if Y.CrashCount > X.CrashCount then [NewActualLRPCrashedEvent X Y] else []) ++
        [NewActualLRPInstanceCreatedEvent Y, NewActualLRPInstanceRemovedEvent X] := by
    simp [stretchSlice, collectInstanceEvents, generateLRPInstanceEvents, ActualLRP.Equal, hne, hY,
      generateUnclaimedInstanceEvents]
  show sortSlice shouldEventComeFirst
    (collectInstanceEvents (stretchSlice [some X] [some Y]) [some Y]) = _
  rw [hgen]
  apply sortSlice_events_of_sorted
  split_ifs <;> simp [hrun]

/-- Witness of claim C2: a Running record with crash count 0 replaced by an
Unclaimed record with crash count 1. -/
theorem emitEvents_unclaimed_instance_hub_witness :
    lrpRunning ≠ lrpRestarted ∧ lrpRestarted.State = ActualLRPStateUnclaimed ∧
    (EmitEvents [some lrpRunning] [some lrpRestarted]).ActualLRPInstanceHub =
      [NewActualLRPCrashedEvent lrpRunning lrpRestarted,
       NewActualLRPInstanceCreatedEvent lrpRestarted,
       NewActualLRPInstanceRemovedEvent lrpRunning] :=
  ⟨by decide, rfl,
    emitEvents_unclaimed_instance_hub lrpRunning lrpRestarted (by decide) rfl⟩

/-! ## The claim transition -/

/-- Claim C3, evaluated on the code: for the Unclaimed record with an empty
instance key and the Claimed record with instance key `("ig-1", "cell-1")`, the
instance-hub diff is empty, not `[InstanceChanged(before, after)]`, and so is
what `EmitEvents` hands to the instance hub. -/
theorem claim_transition_instance_diff_empty :
    lrpUnclaimed.State = ActualLRPStateUnclaimed ∧
    lrpUnclaimed.ActualLRPInstanceKey = { InstanceGuid := "", CellId := "" } ∧
    lrpClaimed.State = ActualLRPStateClaimed ∧
    lrpClaimed.ActualLRPInstanceKey ≠ { InstanceGuid := "", CellId := "" } ∧
    generateLRPInstanceEvents (some lrpUnclaimed) (some lrpClaimed) = [] ∧
    generateLRPInstanceEvents (some lrpUnclaimed) (some lrpClaimed)
      ≠ [NewActualLRPInstanceChangedEvent lrpUnclaimed lrpClaimed] ∧
    (EmitEvents [some lrpUnclaimed] [some lrpClaimed]).ActualLRPInstanceHub = [] := by
  refine ⟨rfl, rfl, rfl, by decide, by decide, by decide, by decide⟩

/-! ## The group hub: one slot -/

/-- Claim C4, evaluated on the code: for two different records with the same
instance key, the group-hub slot diff is empty when the after record is Running
(Claimed to Running) and when it is Claimed (Running to Claimed); the claimed
`[Changed(group of X, group of Y)]` is not produced. -/
theorem same_key_update_group_diff_empty :
    lrpClaimed.ActualLRPInstanceKey = lrpRunning.ActualLRPInstanceKey ∧
    lrpClaimed ≠ lrpRunning ∧
    generateLRPInstanceGroupEvents (some lrpClaimed) (some lrpRunning) = [] ∧
    generateLRPInstanceGroupEvents (some lrpRunning) (some lrpClaimed) = [] ∧
    generateLRPInstanceGroupEvents (some lrpClaimed) (some lrpRunning)
      ≠ [NewActualLRPChangedEvent lrpClaimed.ToActualLRPGroup lrpRunning.ToActualLRPGroup] := by
  refine ⟨rfl, by decide, by decide, by decide, by decide⟩

/-- Claim C5, evaluated on the code: when the Instance slot goes from the
Unclaimed record with an empty instance key to the Claimed (or the Running)
record with instance key `("ig-1", "cell-1")`, the group hub receives a Created
and a Removed event and no Changed event. -/
theorem unclaimed_to_claimed_group_events :
    generateLRPGroupEvents { Instance := some lrpUnclaimed, Evacuating := none }
        { Instance := some lrpClaimed, Evacuating := none }
      = [NewActualLRPCreatedEvent lrpClaimed.ToActualLRPGroup,
         NewActualLRPRemovedEvent lrpUnclaimed.ToActualLRPGroup] ∧
    generateLRPGroupEvents { Instance := some lrpUnclaimed, Evacuating := none }
        { Instance := some lrpRunning, Evacuating := none }
      = [NewActualLRPCreatedEvent lrpRunning.ToActualLRPGroup,
         NewActualLRPRemovedEvent lrpUnclaimed.ToActualLRPGroup] ∧
    (EmitEvents [some lrpUnclaimed] [some lrpClaimed]).ActualLRPGroupHub
      = [NewActualLRPCreatedEvent lrpClaimed.ToActualLRPGroup,
         NewActualLRPRemovedEvent lrpUnclaimed.ToActualLRPGroup] ∧
    (EmitEvents [some lrpUnclaimed] [some lrpClaimed]).ActualLRPGroupHub
      ≠ [NewActualLRPChangedEvent lrpUnclaimed.ToActualLRPGroup lrpClaimed.ToActualLRPGroup] := by
  refine ⟨by decide, by decide, by decide, by decide⟩

theorem generateLRPInstanceGroupEvents_self (e : Option ActualLRP) :
    generateLRPInstanceGroupEvents e e = [] := by
  simp [generateLRPInstanceGroupEvents, ActualLRP.Equal]

/-- Claim C6: for non-nil Instance-slot records `X` and `Y` with different
instance keys and `Y.State` Claimed or Running (the other slot unchanged),
`generateLRPGroupEvents` yields exactly `Created(group of Y)` followed by
`Removed(group of X)`. The instance keys need not be non-empty. -/
theorem generateLRPGroupEvents_replaced (X Y : ActualLRP) (e : Option ActualLRP)
    (hkey : X.ActualLRPInstanceKey ≠ Y.ActualLRPInstanceKey)
    (hY : Y.State = ActualLRPStateClaimed ∨ Y.State = ActualLRPStateRunning) :
    generateLRPGroupEvents { Instance := some X, Evacuating := e }
        { Instance := some Y, Evacuating := e }
      = [NewActualLRPCreatedEvent Y.ToActualLRPGroup,
         NewActualLRPRemovedEvent X.ToActualLRPGroup] := by
  have hne : X ≠ Y := fun h => hkey (by rw [h])
  have hkey2 : ¬ Y.ActualLRPInstanceKey = X.ActualLRPInstanceKey := fun h => hkey h.symm
  obtain ⟨h1, h2, h3, h4, h5, h6⟩ := state_constants_distinct
  have hgen : generateLRPInstanceGroupEvents (some X) (some Y)
      = [NewActualLRPCreatedEvent Y.ToActualLRPGroup,
         NewActualLRPRemovedEvent X.ToActualLRPGroup] := by
    rcases hY with hY | hY
    · simp [generateLRPInstanceGroupEvents, ActualLRP.Equal, hne, hY, generateUpdateGroupEvents,
        ActualLRPInstanceKey.Equal, hkey2, h1.symm]
    · simp [generateLRPInstanceGroupEvents, ActualLRP.Equal, hne, hY, generateUpdateGroupEvents,
        ActualLRPInstanceKey.Equal, hkey2, h2.symm, h4.symm]
  unfold generateLRPGroupEvents
  simp only [hgen, generateLRPInstanceGroupEvents_self, List.append_nil]
  apply sortSlice_events_of_sorted
  simp
  split_ifs <;> decide

/-- Witness of claim C6: an Ordinary Running record replaces a Suspect one. -/
theorem generateLRPGroupEvents_replaced_witness :
    lrpSuspect.ActualLRPInstanceKey ≠ lrpReplacement.ActualLRPInstanceKey ∧
    generateLRPGroupEvents { Instance := some lrpSuspect, Evacuating := none }
        { Instance := some lrpReplacement, Evacuating := none }
      = [NewActualLRPCreatedEvent lrpReplacement.ToActualLRPGroup,
         NewActualLRPRemovedEvent lrpSuspect.ToActualLRPGroup] :=
  ⟨by decide,
    generateLRPGroupEvents_replaced lrpSuspect lrpReplacement none (by decide) (Or.inr rfl)⟩

/-! ## The Unclaimed and the Crashed rule on both hubs -/

/-- Claim C7: for non-nil slot records `X ≠ Y` with `Y.State = Unclaimed`, the
group-hub slot diff is `Crashed(X,Y)` exactly when
`Y.CrashCount > X.CrashCount`, then `Changed(group of X, group of Y)`; sorting
leaves it in that order; it holds no Created and no Removed event; and when the
crash count increases the crashed events of the group diff and of the instance
diff are the same single event `Crashed(X,Y)`. -/
theorem unclaimed_group_diff (X Y : ActualLRP) (hne : X ≠ Y)
    (hY : Y.State = ActualLRPStateUnclaimed) :
    generateLRPInstanceGroupEvents (some X) (some Y) =
      (if Y.CrashCount > X.CrashCount then [NewActualLRPCrashedEvent X Y] else []) ++
        [NewActualLRPChangedEvent X.ToActualLRPGroup Y.ToActualLRPGroup] ∧
    sortSlice shouldEventComeFirst (generateLRPInstanceGroupEvents (some X) (some Y))
      = generateLRPInstanceGroupEvents (some X) (some Y) ∧
    (∀ e ∈ generateLRPInstanceGroupEvents (some X) (some Y),
      e.isCreation = false ∧ e.isRemoval = false) ∧
    (Y.CrashCount > X.CrashCount →
      (generateLRPInstanceGroupEvents (some X) (some Y)).filter Event.isCrashed
        = [NewActualLRPCrashedEvent X Y] ∧
      (generateLRPInstanceEvents (some X) (some Y)).filter Event.isCrashed
        = [NewActualLRPCrashedEvent X Y]) := by
  have hrun : Y.State ≠ ActualLRPStateRunning := by
    rw [hY]; exact state_constants_distinct.2.1
  have hgen : generateLRPInstanceGroupEvents (some X) (some Y) =
      (if Y.CrashCount > X.CrashCount then [NewActualLRPCrashedEvent X Y] else []) ++
        [NewActualLRPChangedEvent X.ToActualLRPGroup Y.ToActualLRPGroup] := by
    simp [generateLRPInstanceGroupEvents, ActualLRP.Equal, hne, hY, generateUnclaimedGroupEvents]
  have hinst : generateLRPInstanceEvents (some X) (some Y) =
      (if Y.CrashCount > X.CrashCount then [NewActualLRPCrashedEvent X Y] else []) ++
        [NewActualLRPInstanceCreatedEvent Y, NewActualLRPInstanceRemovedEvent X] := by
    simp [generateLRPInstanceEvents, ActualLRP.Equal, hne, hY, generateUnclaimedInstanceEvents]
  refine ⟨hgen, ?_, ?_, ?_⟩
  · apply sortSlice_events_of_sorted
    rw [hgen]
    split_ifs <;> simp [hrun]
  · rw [hgen]
    intro e he
    split_ifs at he <;> simp at he <;> rcases he with rfl | rfl <;> exact ⟨rfl, rfl⟩
  · intro hcc
    rw [hgen, hinst]
    simp only [hcc, if_true]
    exact ⟨rfl, rfl⟩

/-- Witness of claim C7: a Running record with crash count 0 replaced by an
Unclaimed record with crash count 1. -/
theorem unclaimed_group_diff_witness :
    generateLRPInstanceGroupEvents (some lrpRunning) (some lrpRestarted) =
      [NewActualLRPCrashedEvent lrpRunning lrpRestarted,
       NewActualLRPChangedEvent lrpRunning.ToActualLRPGroup lrpRestarted.ToActualLRPGroup] :=
  (unclaimed_group_diff lrpRunning lrpRestarted (by decide) rfl).1

/-- Claim C8: for non-nil records `X ≠ Y` with the same instance key and
`Y.State = Crashed`, the instance-hub diff is
`[Crashed(X,Y), InstanceChanged(X,Y)]`, the group-hub slot diff is
`[Crashed(X,Y), Changed(group of X, group of Y)]`, and the sort leaves each in
that order. -/
theorem crashed_diffs (X Y : ActualLRP)
    (_hkey : X.ActualLRPInstanceKey = Y.ActualLRPInstanceKey) (hne : X ≠ Y)
    (hY : Y.State = ActualLRPStateCrashed) :
    generateLRPInstanceEvents (some X) (some Y) =
      [NewActualLRPCrashedEvent X Y, NewActualLRPInstanceChangedEvent X Y] ∧
    (EmitEvents [some X] [some Y]).ActualLRPInstanceHub =
      [NewActualLRPCrashedEvent X Y, NewActualLRPInstanceChangedEvent X Y] ∧
    generateLRPInstanceGroupEvents (some X) (some Y) =
      [NewActualLRPCrashedEvent X Y,
       NewActualLRPChangedEvent X.ToActualLRPGroup Y.ToActualLRPGroup] ∧
    sortSlice shouldEventComeFirst (generateLRPInstanceGroupEvents (some X) (some Y)) =
      [NewActualLRPCrashedEvent X Y,
       NewActualLRPChangedEvent X.ToActualLRPGroup Y.ToActualLRPGroup] := by
  obtain ⟨h1, h2, h3, h4, h5, h6⟩ := state_constants_distinct
  have hinst : generateLRPInstanceEvents (some X) (some Y) =
      [NewActualLRPCrashedEvent X Y, NewActualLRPInstanceChangedEvent X Y] := by
    simp [generateLRPInstanceEvents, ActualLRP.Equal, hne, hY, generateCrashedInstanceEvents,
      h3.symm]
  have hgrp : generateLRPInstanceGroupEvents (some X) (some Y) =
      [NewActualLRPCrashedEvent X Y,
       NewActualLRPChangedEvent X.ToActualLRPGroup Y.ToActualLRPGroup] := by
    simp [generateLRPInstanceGroupEvents, ActualLRP.Equal, hne, hY, generateCrashedGroupEvents,
      h3.symm, h5.symm, h6.symm]
  refine ⟨hinst, ?_, hgrp, ?_⟩
  · show sortSlice shouldEventComeFirst
      (collectInstanceEvents (stretchSlice [some X] [some Y]) [some Y]) = _
    have : collectInstanceEvents (stretchSlice [some X] [some Y]) [some Y]
        = generateLRPInstanceEvents (some X) (some Y) := by
      simp [stretchSlice, collectInstanceEvents]
    rw [this, hinst]
    apply sortSlice_events_of_sorted
    simp
  · rw [hgrp]
    apply sortSlice_events_of_sorted
    simp

/-- Witness of claim C8: a Running record that crashes, keeping its instance
key. -/
theorem crashed_diffs_witness :
    generateLRPInstanceEvents (some lrpRunning) (some lrpCrashed) =
      [NewActualLRPCrashedEvent lrpRunning lrpCrashed,
       NewActualLRPInstanceChangedEvent lrpRunning lrpCrashed] :=
  (crashed_diffs lrpRunning lrpCrashed rfl (by decide) rfl).1

/-! ## Ordering of the emitted events -/

theorem eventClass_of_isRemoval (e : Event) (h : e.isRemoval = true) : eventClass e = 3 := by
  cases e <;> simp [Event.isRemoval] at h <;> rfl

/-- Every event of an instance-hub diff without a resulting record is a
removal. -/
theorem instance_diff_wellformed (b a : Option ActualLRP) :
    ∀ e ∈ generateLRPInstanceEvents b a, eventClass e = 3 → e.isRemoval = true := by
  cases b <;> cases a <;>
    simp only [generateLRPInstanceEvents, generateUnclaimedInstanceEvents,
      generateCrashedInstanceEvents, generateUpdateInstanceEvents] <;>
    split_ifs <;> simp <;> (try split_ifs) <;> simp [NewActualLRPInstanceRemovedEvent, Event.isRemoval]

/-- Every event of a group-hub slot diff without a resulting record is a
removal. -/
theorem group_diff_wellformed (b a : Option ActualLRP) :
    ∀ e ∈ generateLRPInstanceGroupEvents b a, eventClass e = 3 → e.isRemoval = true := by
  cases b <;> cases a <;>
    simp only [generateLRPInstanceGroupEvents, generateUnclaimedGroupEvents,
      generateCrashedGroupEvents, generateUpdateGroupEvents] <;>
    split_ifs <;> simp <;> (try split_ifs) <;> simp [NewActualLRPRemovedEvent, Event.isRemoval]

theorem mem_collectInstanceEvents (bs as : List (Option ActualLRP)) (e : Event)
    (he : e ∈ collectInstanceEvents bs as) :
    ∃ b a, e ∈ generateLRPInstanceEvents b a := by
  induction bs generalizing as with
  | nil => simp [collectInstanceEvents] at he
  | cons b bs ih =>
    cases as with
    | nil => simp [collectInstanceEvents] at he
    | cons a as =>
      simp only [collectInstanceEvents, List.mem_append] at he
      rcases he with h | h
      · exact ⟨b, a, h⟩
      · exact ih as h

theorem instanceHub_wellformed (before after : List (Option ActualLRP)) :
    ∀ e ∈ (EmitEvents before after).ActualLRPInstanceHub,
      eventClass e = 3 → e.isRemoval = true := by
  intro e he
  have he2 : e ∈ collectInstanceEvents (stretchSlice before after) after :=
    (sortSlice_perm shouldEventComeFirst _).subset he
  obtain ⟨b, a, h⟩ := mem_collectInstanceEvents _ _ e he2
  exact instance_diff_wellformed b a e h

theorem generateLRPGroupEvents_wellformed (before after : ActualLRPGroup) :
    ∀ e ∈ generateLRPGroupEvents before after, eventClass e = 3 → e.isRemoval = true := by
  intro e he
  have he2 := (sortSlice_perm shouldEventComeFirst _).subset he
  rcases List.mem_append.mp he2 with h | h
  · exact group_diff_wellformed _ _ e h
  · exact group_diff_wellformed _ _ e h

theorem sortSlice_events_sorted (l : List Event) :
    (sortSlice shouldEventComeFirst l).Pairwise (fun a b => eventClass a ≤ eventClass b) :=
  sortSlice_sorted shouldEventComeFirst eventClass shouldEventComeFirst_eq_class l

theorem crashed_first_of_sorted (l : List Event)
    (hl : l.Pairwise (fun a b => eventClass a ≤ eventClass b)) :
    l.Pairwise (fun a b => b.isCrashed = true → a.isCrashed = true) := by
  refine hl.imp ?_
  intro a b hab hb
  have hb0 : eventClass b = 0 := (eventClass_eq_zero_iff b).mpr hb
  exact (eventClass_eq_zero_iff a).mp (by omega)

theorem removals_after_of_sorted (l : List Event)
    (hwf : ∀ e ∈ l, eventClass e = 3 → e.isRemoval = true)
    (hl : l.Pairwise (fun a b => eventClass a ≤ eventClass b)) :
    l.Pairwise (fun a b => a.isRemoval = true → b.isRemoval = true) := by
  refine List.Pairwise.imp_of_mem ?_ hl
  intro a b _ hb hab ha
  have ha3 := eventClass_of_isRemoval a ha
  have hb3 := eventClass_le_three b
  exact hwf b hb (by omega)

/-- Claim C9: in the sequence handed to each hub by one `EmitEvents` call,
every crashed event precedes every event that is not a crashed event: whenever
an event comes later than another and is a crashed event, so is the earlier
one. -/
theorem crashed_events_first (before after : List (Option ActualLRP)) :
    (EmitEvents before after).ActualLRPGroupHub.Pairwise
      (fun a b => b.isCrashed = true → a.isCrashed = true) ∧
    (EmitEvents before after).ActualLRPInstanceHub.Pairwise
      (fun a b => b.isCrashed = true → a.isCrashed = true) :=
  ⟨crashed_first_of_sorted _ (sortSlice_events_sorted _),
   crashed_first_of_sorted _ (sortSlice_events_sorted _)⟩

/-- Claim C10: in the sequence handed to each hub by one `EmitEvents` call, no
removal event (`Removed` on the group hub, `InstanceRemoved` on the instance
hub) is followed by a non-removal event: whenever an event comes earlier than
another and is a removal, so is the later one. -/
theorem emitEvents_removals_last (before after : List (Option ActualLRP)) :
    (EmitEvents before after).ActualLRPGroupHub.Pairwise
      (fun a b => a.isRemoval = true → b.isRemoval = true) ∧
    (EmitEvents before after).ActualLRPInstanceHub.Pairwise
      (fun a b => a.isRemoval = true → b.isRemoval = true) :=
  ⟨removals_after_of_sorted _ (generateLRPGroupEvents_wellformed _ _) (sortSlice_events_sorted _),
   removals_after_of_sorted _ (instanceHub_wellformed before after) (sortSlice_events_sorted _)⟩

theorem mem_applyInstanceEvent (s : List ActualLRP) (e : Event) (r : ActualLRP) :
    r ∈ applyInstanceEvent s e ↔ (r ∈ s ∧ evRemoves e ≠ some r) ∨ evAdds e = some r := by
  cases e <;> simp [applyInstanceEvent, evAdds, evRemoves, List.mem_filter] <;> tauto

theorem mem_applyInstanceEvents (A : ActualLRP → Prop) (events : List Event)
    (hadd : ∀ e ∈ events, ∀ r, evAdds e = some r → A r)
    (hrem : ∀ e ∈ events, ∀ r, evRemoves e = some r → ¬ A r)
    (s : List ActualLRP) (r : ActualLRP) :
    r ∈ applyInstanceEvents s events ↔
      (r ∈ s ∧ ∀ e ∈ events, evRemoves e ≠ some r) ∨ ∃ e ∈ events, evAdds e = some r := by
  induction events generalizing s with
  | nil => simp [applyInstanceEvents]
  | cons e rest ih =>
    have hadd2 : ∀ e ∈ rest, ∀ r, evAdds e = some r → A r :=
      fun e he => hadd e (List.mem_cons_of_mem _ he)
    have hrem2 : ∀ e ∈ rest, ∀ r, evRemoves e = some r → ¬ A r :=
      fun e he => hrem e (List.mem_cons_of_mem _ he)
    have step : applyInstanceEvents s (e :: rest)
        = applyInstanceEvents (applyInstanceEvent s e) rest := rfl
    rw [step, ih hadd2 hrem2, mem_applyInstanceEvent]
    constructor
    · rintro (⟨(⟨hs, hne⟩ | hadde), hall⟩ | ⟨e2, he2, h2⟩)
      · left
        refine ⟨hs, ?_⟩
        intro e2 he2
        rcases List.mem_cons.mp he2 with h | h
        · subst h; exact hne
        · exact hall e2 h
      · right; exact ⟨e, List.mem_cons_self _ _, hadde⟩
      · right; exact ⟨e2, List.mem_cons_of_mem _ he2, h2⟩
    · rintro (⟨hs, hall⟩ | ⟨e2, he2, h2⟩)
      · left
        exact ⟨Or.inl ⟨hs, hall e (List.mem_cons_self _ _)⟩,
          fun e2 he2 => hall e2 (List.mem_cons_of_mem _ he2)⟩
      · rcases List.mem_cons.mp he2 with h | h
        · subst h
          left
          refine ⟨Or.inr h2, ?_⟩
          intro e3 he3 h3
          exact hrem2 e3 he3 r h3 (hadd e2 (List.mem_cons_self _ _) r h2)
        · right; exact ⟨e2, h, h2⟩

theorem generateLRPInstanceEvents_self (e : Option ActualLRP) :
    generateLRPInstanceEvents e e = [] := by
  simp [generateLRPInstanceEvents, ActualLRP.Equal]

/-- An instance diff only adds the after record. -/
theorem instance_diff_adds (b a : Option ActualLRP) (e : Event)
    (he : e ∈ generateLRPInstanceEvents b a) (r : ActualLRP) (hr : evAdds e = some r) :
    a = some r := by
  revert e
  cases b <;> cases a <;>
    simp only [generateLRPInstanceEvents, generateUnclaimedInstanceEvents,
      generateCrashedInstanceEvents, generateUpdateInstanceEvents] <;>
    split_ifs <;> simp <;>
    simp [NewActualLRPInstanceRemovedEvent, NewActualLRPInstanceCreatedEvent,
      NewActualLRPInstanceChangedEvent, NewActualLRPCrashedEvent, evAdds]

/-- An instance diff only removes the before record, and only when the
position changes. -/
theorem instance_diff_removes (b a : Option ActualLRP) (e : Event)
    (he : e ∈ generateLRPInstanceEvents b a) (r : ActualLRP) (hr : evRemoves e = some r) :
    b = some r ∧ b ≠ a := by
  by_cases hba : b = a
  · subst hba
    rw [generateLRPInstanceEvents_self] at he
    simp at he
  refine ⟨?_, hba⟩
  revert e
  cases b <;> cases a <;>
    simp only [generateLRPInstanceEvents, generateUnclaimedInstanceEvents,
      generateCrashedInstanceEvents, generateUpdateInstanceEvents] <;>
    split_ifs <;> simp <;>
    simp [NewActualLRPInstanceRemovedEvent, NewActualLRPInstanceCreatedEvent,
      NewActualLRPInstanceChangedEvent, NewActualLRPCrashedEvent, evRemoves]

/-- A changed position with a non-nil before record produces an event that
removes it, as long as the after entry is nil or in one of the three states the
instance diff handles. -/
theorem instance_diff_has_remove (x : ActualLRP) (a : Option ActualLRP)
    (hne : a ≠ some x)
    (hstate : ∀ y, a = some y → y.State = ActualLRPStateUnclaimed ∨
      y.State = ActualLRPStateCrashed ∨ y.State = ActualLRPStateRunning) :
    ∃ e ∈ generateLRPInstanceEvents (some x) a, evRemoves e = some x := by
  obtain ⟨h1, h2, h3, h4, h5, h6⟩ := state_constants_distinct
  cases a with
  | none =>
    exact ⟨NewActualLRPInstanceRemovedEvent x,
      by simp [generateLRPInstanceEvents, ActualLRP.Equal], rfl⟩
  | some y =>
    have hxy : x ≠ y := fun h => hne (by rw [h])
    rcases hstate y rfl with hs | hs | hs
    · exact ⟨NewActualLRPInstanceRemovedEvent x,
        by simp [generateLRPInstanceEvents, ActualLRP.Equal, hxy, hs,
          generateUnclaimedInstanceEvents], rfl⟩
    · exact ⟨NewActualLRPInstanceChangedEvent x y,
        by simp [generateLRPInstanceEvents, ActualLRP.Equal, hxy, hs, h3.symm,
          generateCrashedInstanceEvents], rfl⟩
    · exact ⟨NewActualLRPInstanceChangedEvent x y,
        by simp [generateLRPInstanceEvents, ActualLRP.Equal, hxy, hs, h2.symm, h6,
          generateUpdateInstanceEvents], rfl⟩

/-- A changed position with a non-nil after record produces an event that adds
it, as long as the before entry is nil or the after record is in one of the
three states the instance diff handles. -/
theorem instance_diff_has_add (b : Option ActualLRP) (y : ActualLRP)
    (hne : b ≠ some y)
    (hstate : ∀ x, b = some x → y.State = ActualLRPStateUnclaimed ∨
      y.State = ActualLRPStateCrashed ∨ y.State = ActualLRPStateRunning) :
    ∃ e ∈ generateLRPInstanceEvents b (some y), evAdds e = some y := by
  obtain ⟨h1, h2, h3, h4, h5, h6⟩ := state_constants_distinct
  cases b with
  | none =>
    exact ⟨NewActualLRPInstanceCreatedEvent y,
      by simp [generateLRPInstanceEvents, ActualLRP.Equal], rfl⟩
  | some x =>
    have hxy : x ≠ y := fun h => hne (by rw [h])
    rcases hstate x rfl with hs | hs | hs
    · exact ⟨NewActualLRPInstanceCreatedEvent y,
        by simp [generateLRPInstanceEvents, ActualLRP.Equal, hxy, hs,
          generateUnclaimedInstanceEvents], rfl⟩
    · exact ⟨NewActualLRPInstanceChangedEvent x y,
        by simp [generateLRPInstanceEvents, ActualLRP.Equal, hxy, hs, h3.symm,
          generateCrashedInstanceEvents], rfl⟩
    · exact ⟨NewActualLRPInstanceChangedEvent x y,
        by simp [generateLRPInstanceEvents, ActualLRP.Equal, hxy, hs, h2.symm, h6,
          generateUpdateInstanceEvents], rfl⟩

/-- The events of the positional loop are the events of the diffs of the
positions both slices have. -/
theorem mem_collectInstanceEvents_iff (bs as : List (Option ActualLRP)) (e : Event) :
    e ∈ collectInstanceEvents bs as ↔
      ∃ (i : Nat) (b a : Option ActualLRP),
        bs[i]? = some b ∧ as[i]? = some a ∧ e ∈ generateLRPInstanceEvents b a := by
  induction bs generalizing as with
  | nil => simp [collectInstanceEvents]
  | cons b bs ih =>
    cases as with
    | nil => simp [collectInstanceEvents]
    | cons a as =>
      simp only [collectInstanceEvents, List.mem_append, ih]
      constructor
      · rintro (h | ⟨i, b2, a2, hb, ha, h⟩)
        · exact ⟨0, b, a, by simp, by simp, h⟩
        · exact ⟨i + 1, b2, a2, by simpa using hb, by simpa using ha, h⟩
      · rintro ⟨i, b2, a2, hb, ha, h⟩
        cases i with
        | zero =>
          simp at hb ha
          subst hb; subst ha
          exact Or.inl h
        | succ i =>
          exact Or.inr ⟨i, b2, a2, by simpa using hb, by simpa using ha, h⟩

theorem stretchSlice_getElem_opt (before after : List (Option ActualLRP)) (i : Nat) :
    (stretchSlice before after)[i]? =
      if i < before.length then before[i]?
      else if i < after.length then some none else none := by
  unfold stretchSlice
  by_cases hlt : before.length < after.length
  · simp only [hlt, if_true]
    by_cases hi : i < before.length
    · simp [hi, List.getElem?_append_left hi]
    · have hge : before.length ≤ i := Nat.le_of_not_lt hi
      simp only [hi, if_false]
      rw [List.getElem?_append_right hge]
      by_cases hi2 : i < after.length
      · have : i - before.length < after.length - before.length := by omega
        simp [hi2, List.getElem?_replicate, this]
      · have : ¬ i - before.length < after.length - before.length := by omega
        simp [hi2, List.getElem?_replicate, this]
  · simp only [hlt, if_false]
    by_cases hi : i < before.length
    · simp [hi]
    · have h1 : before.length ≤ i := Nat.le_of_not_lt hi
      have h2 : ¬ i < after.length := by omega
      simp [hi, h2, List.getElem?_eq_none h1]

theorem mem_records (lrps : List (Option ActualLRP)) (r : ActualLRP) :
    r ∈ records lrps ↔ some r ∈ lrps := by
  simp [records, List.mem_filterMap]

/-! ## Conservation on the instance hub -/

theorem stretchSlice_getElem_some (before after : List (Option ActualLRP)) (i : Nat)
    (x : ActualLRP) :
    (stretchSlice before after)[i]? = some (some x) ↔ before[i]? = some (some x) := by
  rw [stretchSlice_getElem_opt]
  by_cases hi : i < before.length
  · simp [hi]
  · have h1 : before.length ≤ i := Nat.le_of_not_lt hi
    simp only [hi, if_false, List.getElem?_eq_none h1]
    split_ifs <;> simp

theorem stretchSlice_getElem_of_lt (before after : List (Option ActualLRP)) (i : Nat)
    (hi : i < after.length) : ∃ b, (stretchSlice before after)[i]? = some b := by
  rw [stretchSlice_getElem_opt]
  by_cases hb : i < before.length
  · exact ⟨before[i], by simp [hb]⟩
  · exact ⟨none, by simp [hb, hi]⟩

/-- Claim C1, evaluated on the code: conservation, which the docstring of
`EmitEvents` promises, fails. For `before = [X]` and `after = []` the loop runs
over the positions of `after` alone, nothing is handed to the instance hub and
`{X}` stays, while `after` holds no record. For `before = [U]`, `after = [C]`
with `U` Unclaimed and `C` Claimed the diff has no Claimed case, nothing is
handed to the hub and `{U}` stays, not `{C}`. For `before = [X]` and
`after = [nil, X]` the hub receives `InstanceCreated(X)` and then
`InstanceRemoved(X)`, which leave the empty set, not `{X}`. -/
theorem conservation_violated :
    (EmitEvents [some lrpRunning] []).ActualLRPInstanceHub = [] ∧
    applyInstanceEvents (records [some lrpRunning])
      (EmitEvents [some lrpRunning] []).ActualLRPInstanceHub = [lrpRunning] ∧
    records ([] : List (Option ActualLRP)) = [] ∧
    (EmitEvents [some lrpUnclaimed] [some lrpClaimed]).ActualLRPInstanceHub = [] ∧
    applyInstanceEvents (records [some lrpUnclaimed])
      (EmitEvents [some lrpUnclaimed] [some lrpClaimed]).ActualLRPInstanceHub
      = [lrpUnclaimed] ∧
    records [some lrpClaimed] = [lrpClaimed] ∧
    (EmitEvents [some lrpRunning] [none, some lrpRunning]).ActualLRPInstanceHub
      = [NewActualLRPInstanceCreatedEvent lrpRunning,
         NewActualLRPInstanceRemovedEvent lrpRunning] ∧
    applyInstanceEvents (records [some lrpRunning])
      (EmitEvents [some lrpRunning] [none, some lrpRunning]).ActualLRPInstanceHub = [] ∧
    records [none, some lrpRunning] = [lrpRunning] ∧
    ¬ (∀ (before after : List (Option ActualLRP)) (r : ActualLRP),
        r ∈ applyInstanceEvents (records before)
          (EmitEvents before after).ActualLRPInstanceHub ↔ r ∈ records after) := by
  refine ⟨by decide, by decide, by decide, by decide, by decide, by decide, by decide,
    by decide, by decide, ?_⟩
  intro h
  have h1 := h [some lrpRunning] [] lrpRunning
  revert h1
  decide

/-- Where conservation does hold: let `before` be no longer than `after`, and
let every position whose before record `X` is non-nil and differs from the
after entry have an after entry that is nil or a record in state Unclaimed,
Crashed or Running, and a record `X` that occurs nowhere in `after`. Then
applying the events emitted on the instance hub, in order, to the records of
`before` yields exactly the set of non-nil records of `after`. -/
theorem conservation_of_stable_positions (before after : List (Option ActualLRP))
    (hlen : before.length ≤ after.length)
    (hstate : ∀ (i : Nat) (x y : ActualLRP),
      before[i]? = some (some x) → after[i]? = some (some y) → x ≠ y →
        y.State = ActualLRPStateUnclaimed ∨ y.State = ActualLRPStateCrashed ∨
          y.State = ActualLRPStateRunning)
    (hfresh : ∀ (i : Nat) (x : ActualLRP),
      before[i]? = some (some x) → after[i]? ≠ some (some x) → some x ∉ after)
    (r : ActualLRP) :
    r ∈ applyInstanceEvents (records before) (EmitEvents before after).ActualLRPInstanceHub
      ↔ r ∈ records after := by
  have hhub : ∀ e, e ∈ (EmitEvents before after).ActualLRPInstanceHub ↔
      ∃ (i : Nat) (b a : Option ActualLRP), (stretchSlice before after)[i]? = some b ∧
        after[i]? = some a ∧ e ∈ generateLRPInstanceEvents b a := by
    intro e
    rw [← mem_collectInstanceEvents_iff]
    exact (sortSlice_perm shouldEventComeFirst _).mem_iff
  have hadd : ∀ e ∈ (EmitEvents before after).ActualLRPInstanceHub,
      ∀ r, evAdds e = some r → some r ∈ after := by
    intro e he r hr
    obtain ⟨i, b, a, _, ha, hgen⟩ := (hhub e).mp he
    have := instance_diff_adds b a e hgen r hr
    subst this
    exact List.mem_iff_getElem?.mpr ⟨i, ha⟩
  have hrem : ∀ e ∈ (EmitEvents before after).ActualLRPInstanceHub,
      ∀ r, evRemoves e = some r → ¬ some r ∈ after := by
    intro e he r hr
    obtain ⟨i, b, a, hb, ha, hgen⟩ := (hhub e).mp he
    obtain ⟨hbr, hne⟩ := instance_diff_removes b a e hgen r hr
    subst hbr
    refine hfresh i r ((stretchSlice_getElem_some before after i r).mp hb) ?_
    rw [ha]
    intro h
    exact hne (Option.some.inj h).symm
  rw [mem_applyInstanceEvents (fun r => some r ∈ after) _ hadd hrem, mem_records, mem_records]
  constructor
  · rintro (⟨hr, hall⟩ | ⟨e, he, hr⟩)
    · obtain ⟨i, hi⟩ := List.mem_iff_getElem?.mp hr
      have hilt : i < before.length := by
        by_contra hcon
        rw [List.getElem?_eq_none (Nat.le_of_not_lt hcon)] at hi
        exact Option.noConfusion hi
      have hia : i < after.length := Nat.lt_of_lt_of_le hilt hlen
      by_cases hsame : after[i]? = some (some r)
      · exact List.mem_iff_getElem?.mpr ⟨i, hsame⟩
      · exfalso
        have ha : after[i]? = some after[i] := List.getElem?_eq_getElem hia
        have hne : after[i] ≠ some r := fun h => hsame (by rw [ha, h])
        have hst : ∀ y, after[i] = some y → y.State = ActualLRPStateUnclaimed ∨
            y.State = ActualLRPStateCrashed ∨ y.State = ActualLRPStateRunning := by
          intro y hy
          refine hstate i r y hi (by rw [ha, hy]) ?_
          intro hry
          exact hne (by rw [hy, hry])
        obtain ⟨e, he, hre⟩ := instance_diff_has_remove r after[i] hne hst
        have hmem : e ∈ (EmitEvents before after).ActualLRPInstanceHub :=
          (hhub e).mpr ⟨i, some r, after[i],
            (stretchSlice_getElem_some before after i r).mpr hi, ha, he⟩
        exact hall e hmem hre
    · exact hadd e he r hr
  · intro hr
    obtain ⟨j, hj⟩ := List.mem_iff_getElem?.mp hr
    have hjlt : j < after.length := by
      by_contra hcon
      rw [List.getElem?_eq_none (Nat.le_of_not_lt hcon)] at hj
      exact Option.noConfusion hj
    obtain ⟨b, hb⟩ := stretchSlice_getElem_of_lt before after j hjlt
    by_cases hbr : b = some r
    · left
      subst hbr
      have hbefore := (stretchSlice_getElem_some before after j r).mp hb
      exact ⟨List.mem_iff_getElem?.mpr ⟨j, hbefore⟩, fun e he h => hrem e he r h hr⟩
    · right
      have hst : ∀ x, b = some x → r.State = ActualLRPStateUnclaimed ∨
          r.State = ActualLRPStateCrashed ∨ r.State = ActualLRPStateRunning := by
        intro x hx
        subst hx
        refine hstate j x r ((stretchSlice_getElem_some before after j x).mp hb) hj ?_
        intro hxr
        exact hbr (by rw [hxr])
      obtain ⟨e, he, hae⟩ := instance_diff_has_add b r hbr hst
      exact ⟨e, (hhub e).mpr ⟨j, b, some r, hb, hj, he⟩, hae⟩

/-- An instance of `conservation_of_stable_positions`: a Running record that
becomes Unclaimed with a higher crash count. -/
theorem conservation_of_stable_positions_example :
    lrpRestarted ∈ applyInstanceEvents (records [some lrpRunning])
        (EmitEvents [some lrpRunning] [some lrpRestarted]).ActualLRPInstanceHub
      ↔ lrpRestarted ∈ records [some lrpRestarted] :=
  conservation_of_stable_positions [some lrpRunning] [some lrpRestarted] (by decide)
    (by
      intro i x y hb ha _
      cases i with
      | zero =>
        simp at ha
        subst ha
        exact Or.inl rfl
      | succ i => simp at hb)
    (by
      intro i x hb _
      cases i with
      | zero =>
        simp at hb
        subst hb
        decide
      | succ i => simp at hb)
    lrpRestarted

/-! ## Running results first -/

theorem eventClass_of_hasRunningResult (e : Event) (h : e.hasRunningResult = true) :
    eventClass e = 1 := by
  cases e <;> simp [Event.hasRunningResult, Event.isCreation, Event.isChange, getEventLRP] at h <;>
    simp [eventClass, getEventLRP] <;> first | exact h | (split at h <;> simp_all)

theorem eventClass_of_hasOtherResult (e : Event) (h : e.hasOtherResult = true) :
    eventClass e = 2 := by
  cases e <;> simp [Event.hasOtherResult, Event.isCreation, Event.isChange, getEventLRP] at h <;>
    simp [eventClass, getEventLRP] <;> first | exact h | (split at h <;> simp_all)

theorem running_first_of_sorted (l : List Event)
    (hl : l.Pairwise (fun a b => eventClass a ≤ eventClass b)) :
    l.Pairwise (fun a b => b.hasRunningResult = true → a.hasOtherResult = false) := by
  refine hl.imp ?_
  intro a b hab hb
  have hb1 := eventClass_of_hasRunningResult b hb
  cases ha : a.hasOtherResult with
  | false => rfl
  | true =>
    have ha2 := eventClass_of_hasOtherResult a ha
    omega

/-- Claim C11: in the sequence handed to each hub by one `EmitEvents` call,
every created or changed event whose resulting record is Running precedes every
created or changed event whose resulting record is not Running: an event that
comes earlier than a created or changed event with a Running result is never a
created or changed event with a result in another state. -/
theorem running_results_first (before after : List (Option ActualLRP)) :
    (EmitEvents before after).ActualLRPGroupHub.Pairwise
      (fun a b => b.hasRunningResult = true → a.hasOtherResult = false) ∧
    (EmitEvents before after).ActualLRPInstanceHub.Pairwise
      (fun a b => b.hasRunningResult = true → a.hasOtherResult = false) :=
  ⟨running_first_of_sorted _ (sortSlice_events_sorted _),
   running_first_of_sorted _ (sortSlice_events_sorted _)⟩

/-! ## The instance-key invariant -/

/-- An instance diff never holds an `InstanceChanged` event whose new record
is Unclaimed. -/
theorem instance_diff_changed_state (b a : Option ActualLRP) (X Y : ActualLRP)
    (he : Event.ActualLRPInstanceChanged X Y ∈ generateLRPInstanceEvents b a) :
    Y.State ≠ ActualLRPStateUnclaimed := by
  obtain ⟨h1, h2, h3, h4, h5, h6⟩ := state_constants_distinct
  revert he
  cases b <;> cases a <;>
    simp only [generateLRPInstanceEvents, generateUnclaimedInstanceEvents,
      generateCrashedInstanceEvents, generateUpdateInstanceEvents] <;>
    split_ifs <;>
    simp [NewActualLRPInstanceRemovedEvent, NewActualLRPInstanceCreatedEvent,
      NewActualLRPInstanceChangedEvent, NewActualLRPCrashedEvent] <;>
    simp_all

/-- A group diff never holds an `InstanceChanged` event. -/
theorem group_diff_no_instanceChanged (b a : Option ActualLRP) (X Y : ActualLRP) :
    Event.ActualLRPInstanceChanged X Y ∉ generateLRPInstanceGroupEvents b a := by
  cases b <;> cases a <;>
    simp only [generateLRPInstanceGroupEvents, generateUnclaimedGroupEvents,
      generateCrashedGroupEvents, generateUpdateGroupEvents] <;>
    split_ifs <;>
    simp [NewActualLRPRemovedEvent, NewActualLRPCreatedEvent,
      NewActualLRPChangedEvent, NewActualLRPCrashedEvent]

theorem mem_instanceHub_iff (before after : List (Option ActualLRP)) (e : Event) :
    e ∈ (EmitEvents before after).ActualLRPInstanceHub ↔
      ∃ (i : Nat) (b a : Option ActualLRP), (stretchSlice before after)[i]? = some b ∧
        after[i]? = some a ∧ e ∈ generateLRPInstanceEvents b a := by
  rw [← mem_collectInstanceEvents_iff]
  exact (sortSlice_perm shouldEventComeFirst _).mem_iff

theorem mem_generateLRPGroupEvents_iff (before after : ActualLRPGroup) (e : Event) :
    e ∈ generateLRPGroupEvents before after ↔
      e ∈ generateLRPInstanceGroupEvents before.Instance after.Instance ∨
      e ∈ generateLRPInstanceGroupEvents before.Evacuating after.Evacuating := by
  rw [← List.mem_append]
  exact (sortSlice_perm shouldEventComeFirst _).mem_iff

/-- Claim C12: no `InstanceChanged(X,Y)` event handed to either hub by
`EmitEvents` has `Y.State = Unclaimed`; and whenever position `i` pairs a
non-nil `X` of `before` with a different Unclaimed `Y` of `after`, both
`InstanceRemoved(X)` and `InstanceCreated(Y)` are handed to the instance
hub. -/
theorem unclaimed_never_changed (before after : List (Option ActualLRP)) :
    (∀ X Y : ActualLRP,
      Event.ActualLRPInstanceChanged X Y ∈ (EmitEvents before after).ActualLRPInstanceHub ∨
      Event.ActualLRPInstanceChanged X Y ∈ (EmitEvents before after).ActualLRPGroupHub →
        Y.State ≠ ActualLRPStateUnclaimed) ∧
    (∀ (i : Nat) (X Y : ActualLRP),
      before[i]? = some (some X) → after[i]? = some (some Y) → X ≠ Y →
      Y.State = ActualLRPStateUnclaimed →
        NewActualLRPInstanceRemovedEvent X ∈ (EmitEvents before after).ActualLRPInstanceHub ∧
        NewActualLRPInstanceCreatedEvent Y ∈ (EmitEvents before after).ActualLRPInstanceHub) := by
  constructor
  · rintro X Y (h | h)
    · obtain ⟨i, b, a, _, _, hgen⟩ := (mem_instanceHub_iff before after _).mp h
      exact instance_diff_changed_state b a X Y hgen
    · rcases (mem_generateLRPGroupEvents_iff _ _ _).mp h with h | h
      · exact absurd h (group_diff_no_instanceChanged _ _ X Y)
      · exact absurd h (group_diff_no_instanceChanged _ _ X Y)
  · intro i X Y hb ha hne hY
    have hb2 := (stretchSlice_getElem_some before after i X).mpr hb
    have hgen : generateLRPInstanceEvents (some X) (some Y) =
        (if Y.CrashCount > X.CrashCount then [NewActualLRPCrashedEvent X Y] else []) ++
          [NewActualLRPInstanceCreatedEvent Y, NewActualLRPInstanceRemovedEvent X] := by
      simp [generateLRPInstanceEvents, ActualLRP.Equal, hne, hY, generateUnclaimedInstanceEvents]
    constructor
    · exact (mem_instanceHub_iff before after _).mpr ⟨i, some X, some Y, hb2, ha, by
        rw [hgen]; simp⟩
    · exact (mem_instanceHub_iff before after _).mpr ⟨i, some X, some Y, hb2, ha, by
        rw [hgen]; simp⟩

/-- Witness of claim C12: a Running record replaced by an Unclaimed one at
position 0. -/
theorem unclaimed_never_changed_witness :
    NewActualLRPInstanceRemovedEvent lrpRunning
        ∈ (EmitEvents [some lrpRunning] [some lrpRestarted]).ActualLRPInstanceHub ∧
    NewActualLRPInstanceCreatedEvent lrpRestarted
        ∈ (EmitEvents [some lrpRunning] [some lrpRestarted]).ActualLRPInstanceHub :=
  (unclaimed_never_changed [some lrpRunning] [some lrpRestarted]).2 0 lrpRunning lrpRestarted
    rfl rfl (by decide) rfl

/-! ## No spurious events -/

theorem collectInstanceEvents_self_append (l extra : List (Option ActualLRP)) :
    collectInstanceEvents (l ++ extra) (l ++ extra) = [] := by
  induction l with
  | nil =>
    induction extra with
    | nil => rfl
    | cons a rest ih =>
      simp only [List.nil_append] at ih ⊢
      simp [collectInstanceEvents, generateLRPInstanceEvents_self, ih]
  | cons a rest ih =>
    simp [collectInstanceEvents, generateLRPInstanceEvents_self, ih]

theorem resolveStep_none (g : ActualLRPGroup) : resolveStep g none = g := rfl

theorem foldl_resolveStep_removeNil (lrps : List (Option ActualLRP)) (g : ActualLRPGroup) :
    (removeNilLRPs lrps).foldl resolveStep g = lrps.foldl resolveStep g := by
  induction lrps generalizing g with
  | nil => rfl
  | cons l rest ih =>
    cases l with
    | none => simpa [removeNilLRPs, resolveStep] using ih g
    | some r => simpa [removeNilLRPs] using ih (resolveStep g (some r))

theorem foldl_resolveStep_nils (k : Nat) (g : ActualLRPGroup) :
    (List.replicate k (none : Option ActualLRP)).foldl resolveStep g = g := by
  induction k with
  | zero => rfl
  | succ k ih => simpa [List.replicate_succ, resolveStep] using ih

theorem generateLRPGroupEvents_self (g : ActualLRPGroup) : generateLRPGroupEvents g g = [] := by
  simp [generateLRPGroupEvents, generateLRPInstanceGroupEvents_self, sortSlice]

/-- Counterexample to claim C13: `before = [X, Y]` and `after = [Y, X]` hold
the same records, yet the instance hub receives two `InstanceChanged` events. -/
theorem no_spurious_events_counterexample :
    (∀ r, r ∈ records [some lrpRunning, some lrpReplacement]
        ↔ r ∈ records [some lrpReplacement, some lrpRunning]) ∧
    (EmitEvents [some lrpRunning, some lrpReplacement]
        [some lrpReplacement, some lrpRunning]).ActualLRPInstanceHub
      = [NewActualLRPInstanceChangedEvent lrpRunning lrpReplacement,
         NewActualLRPInstanceChangedEvent lrpReplacement lrpRunning] ∧
    ¬ (∀ before after : List (Option ActualLRP),
        (∀ r, r ∈ records before ↔ r ∈ records after) →
          (EmitEvents before after).ActualLRPInstanceHub = [] ∧
          (EmitEvents before after).ActualLRPGroupHub = []) := by
  have hset : ∀ r, r ∈ records [some lrpRunning, some lrpReplacement]
      ↔ r ∈ records [some lrpReplacement, some lrpRunning] := by
    intro r
    simp [records]
    tauto
  refine ⟨hset, by decide, ?_⟩
  intro h
  have h1 := (h _ _ hset).1
  revert h1
  decide

/-- Claim C13, amended: when `after` holds the entries of `before` at the same
positions, followed by any number of nil entries, `EmitEvents` hands no event
to the instance hub and no event to the group hub. -/
theorem no_spurious_events_same_positions (before : List (Option ActualLRP)) (k : Nat) :
    (EmitEvents before (before ++ List.replicate k none)).ActualLRPInstanceHub = [] ∧
    (EmitEvents before (before ++ List.replicate k none)).ActualLRPGroupHub = [] := by
  constructor
  · show sortSlice shouldEventComeFirst
      (collectInstanceEvents (stretchSlice before (before ++ List.replicate k none))
        (before ++ List.replicate k none)) = []
    have hs : stretchSlice before (before ++ List.replicate k none)
        = before ++ List.replicate k none := by
      unfold stretchSlice
      by_cases hk : k = 0
      · subst hk; simp
      · have : before.length < (before ++ List.replicate k (none : Option ActualLRP)).length := by
          simp; omega
        simp [this]
    rw [hs, collectInstanceEvents_self_append]
    rfl
  · show generateLRPGroupEvents (ResolveActualLRPGroup before)
      (ResolveActualLRPGroup (removeNilLRPs (before ++ List.replicate k none))) = []
    have : ResolveActualLRPGroup (removeNilLRPs (before ++ List.replicate k none))
        = ResolveActualLRPGroup before := by
      unfold ResolveActualLRPGroup
      rw [foldl_resolveStep_removeNil, List.foldl_append, foldl_resolveStep_nils]
    rw [this, generateLRPGroupEvents_self]

/-! ## Padding -/

/-- Claim C14, evaluated on the code: `stretchSlice` pads `before` only. For
`before = [X]` and `after = []`, and for `before = [C, X]` and `after = [C]`,
the slices keep different lengths, the loop runs over the positions of `after`
alone, and the instance hub receives no `InstanceRemoved(X)`: it receives
nothing. When `after` is the longer one, `before` is padded and the extra
record is created. -/
theorem longer_before_not_diffed :
    stretchSlice [some lrpRunning] [] = [some lrpRunning] ∧
    (EmitEvents [some lrpRunning] []).ActualLRPInstanceHub = [] ∧
    NewActualLRPInstanceRemovedEvent lrpRunning
      ∉ (EmitEvents [some lrpRunning] []).ActualLRPInstanceHub ∧
    stretchSlice [some lrpClaimed, some lrpReplacement] [some lrpClaimed]
      = [some lrpClaimed, some lrpReplacement] ∧
    (EmitEvents [some lrpClaimed, some lrpReplacement] [some lrpClaimed]).ActualLRPInstanceHub
      = [] ∧
    stretchSlice [] [some lrpRunning] = [none] ∧
    (EmitEvents [] [some lrpRunning]).ActualLRPInstanceHub
      = [NewActualLRPInstanceCreatedEvent lrpRunning] := by
  refine ⟨by decide, by decide, by decide, by decide, by decide, by decide, by decide⟩

/-! ## Unclaimed to Unclaimed -/

/-- Claim C18, evaluated on the code: for two Unclaimed records of the same
slot that differ only in the placement error, the instance diff is not empty:
it is `[InstanceCreated(after), InstanceRemoved(before)]`. -/
theorem unclaimed_to_unclaimed_instance_diff :
    lrpUnclaimed.State = ActualLRPStateUnclaimed ∧
    lrpUnclaimedFailed.State = ActualLRPStateUnclaimed ∧
    lrpUnclaimed.ActualLRPKey = lrpUnclaimedFailed.ActualLRPKey ∧
    lrpUnclaimedFailed = { lrpUnclaimed with PlacementError := "insufficient resources" } ∧
    generateLRPInstanceEvents (some lrpUnclaimed) (some lrpUnclaimedFailed)
      = [NewActualLRPInstanceCreatedEvent lrpUnclaimedFailed,
         NewActualLRPInstanceRemovedEvent lrpUnclaimed] ∧
    generateLRPInstanceEvents (some lrpUnclaimed) (some lrpUnclaimedFailed) ≠ [] := by
  refine ⟨rfl, rfl, rfl, rfl, by decide, by decide⟩

/-! ## Appearing and disappearing records -/

theorem toActualLRPGroup_of_not_evacuating (X : ActualLRP)
    (hp : X.Presence ≠ Presence.Evacuating) :
    X.ToActualLRPGroup = { Instance := some X, Evacuating := none } := by
  unfold ActualLRP.ToActualLRPGroup
  cases h : X.Presence <;> simp_all

/-- Claim C19: on both hubs a position or slot that goes from absent to a
record `Y` yields exactly `[InstanceCreated(Y)]`, resp.
`[Created(group of Y)]`; one that goes from a record `X` to absent yields
exactly `[InstanceRemoved(X)]`, resp. `[Removed(group of X)]`; one that is
absent before and after yields no event. The same holds for what `EmitEvents`
hands to the two hubs for `([], [Y])`, `([X], [nil])` and `([], [nil])`. -/
theorem absent_present_diffs (X Y : ActualLRP) :
    generateLRPInstanceEvents none (some Y) = [NewActualLRPInstanceCreatedEvent Y] ∧
    generateLRPInstanceGroupEvents none (some Y)
      = [NewActualLRPCreatedEvent Y.ToActualLRPGroup] ∧
    generateLRPInstanceEvents (some X) none = [NewActualLRPInstanceRemovedEvent X] ∧
    generateLRPInstanceGroupEvents (some X) none
      = [NewActualLRPRemovedEvent X.ToActualLRPGroup] ∧
    generateLRPInstanceEvents none none = [] ∧
    generateLRPInstanceGroupEvents none none = [] ∧
    (EmitEvents [] [some Y]).ActualLRPInstanceHub = [NewActualLRPInstanceCreatedEvent Y] ∧
    (EmitEvents [] [some Y]).ActualLRPGroupHub = [NewActualLRPCreatedEvent Y.ToActualLRPGroup] ∧
    (EmitEvents [some X] [none]).ActualLRPInstanceHub = [NewActualLRPInstanceRemovedEvent X] ∧
    (EmitEvents [some X] [none]).ActualLRPGroupHub
      = [NewActualLRPRemovedEvent X.ToActualLRPGroup] ∧
    (EmitEvents [] [none]).ActualLRPInstanceHub = [] ∧
    (EmitEvents [] [none]).ActualLRPGroupHub = [] := by
  refine ⟨?_, ?_, ?_, ?_, ?_, ?_, ?_, ?_, ?_, ?_, by rfl, by rfl⟩
  · simp [generateLRPInstanceEvents, ActualLRP.Equal]
  · simp [generateLRPInstanceGroupEvents, ActualLRP.Equal]
  · simp [generateLRPInstanceEvents, ActualLRP.Equal]
  · simp [generateLRPInstanceGroupEvents, ActualLRP.Equal]
  · simp [generateLRPInstanceEvents, ActualLRP.Equal]
  · simp [generateLRPInstanceGroupEvents, ActualLRP.Equal]
  · simp [EmitEvents, stretchSlice, collectInstanceEvents, generateLRPInstanceEvents,
      ActualLRP.Equal, sortSlice, sinkLeft]
  · by_cases hp : Y.Presence = Presence.Evacuating
    · simp [EmitEvents, ResolveActualLRPGroup, removeNilLRPs, resolveStep, hp,
        generateLRPGroupEvents, generateLRPInstanceGroupEvents, ActualLRP.Equal, sortSlice,
        sinkLeft, ActualLRP.ToActualLRPGroup]
    · simp [EmitEvents, ResolveActualLRPGroup, removeNilLRPs, resolveStep, hp,
        generateLRPGroupEvents, generateLRPInstanceGroupEvents, ActualLRP.Equal, sortSlice,
        sinkLeft, toActualLRPGroup_of_not_evacuating Y hp]
  · simp [EmitEvents, stretchSlice, collectInstanceEvents, generateLRPInstanceEvents,
      ActualLRP.Equal, sortSlice, sinkLeft]
  · by_cases hp : X.Presence = Presence.Evacuating
    · simp [EmitEvents, ResolveActualLRPGroup, removeNilLRPs, resolveStep, hp,
        generateLRPGroupEvents, generateLRPInstanceGroupEvents, ActualLRP.Equal, sortSlice,
        sinkLeft, ActualLRP.ToActualLRPGroup]
    · simp [EmitEvents, ResolveActualLRPGroup, removeNilLRPs, resolveStep, hp,
        generateLRPGroupEvents, generateLRPInstanceGroupEvents, ActualLRP.Equal, sortSlice,
        sinkLeft, toActualLRPGroup_of_not_evacuating X hp]

/-! ## `RecordChange` -/

theorem recordChangeLoop_eq (before after : Option ActualLRP) (lrps : List (Option ActualLRP)) :
    recordChangeLoop before after lrps =
      (lrps.map (fun l => if isReplacedEntry before l then after else l),
       lrps.any (isReplacedEntry before)) := by
  induction lrps with
  | nil => rfl
  | cons l rest ih =>
    unfold recordChangeLoop
    rw [ih]
    cases l with
    | none => simp [isReplacedEntry]
    | some r =>
      cases before with
      | none => simp [isReplacedEntry]
      | some b =>
        by_cases hk : ActualLRPInstanceKey.Equal r.ActualLRPInstanceKey b.ActualLRPInstanceKey
            = true
        · simp [isReplacedEntry, hk]
        · simp [isReplacedEntry, hk]

theorem recordChange_eq (before after : Option ActualLRP) (lrps : List (Option ActualLRP)) :
    RecordChange before after lrps =
      if lrps.any (isReplacedEntry before) then
        lrps.map (fun l => if isReplacedEntry before l then after else l)
      else lrps ++ [after] := by
  unfold RecordChange
  rw [recordChangeLoop_eq]
  cases h : lrps.any (isReplacedEntry before) <;> simp

/-- Claim C15: for a non-nil `before` and a working set with a non-nil entry
whose instance key equals that of `before`, `RecordChange(before, after, lrps)`
is as long as `lrps`, holds `after` at the index of an entry with that instance
key, and holds `lrps[i]` at every other index: at a non-nil entry with another
instance key and at a nil removal marker. -/
theorem recordChange_replaces (b : ActualLRP) (after : Option ActualLRP)
    (lrps : List (Option ActualLRP))
    (hfound : ∃ r, some r ∈ lrps ∧ r.ActualLRPInstanceKey = b.ActualLRPInstanceKey) :
    (RecordChange (some b) after lrps).length = lrps.length ∧
    (∀ (i : Nat) (r : ActualLRP), lrps[i]? = some (some r) →
      r.ActualLRPInstanceKey = b.ActualLRPInstanceKey →
        (RecordChange (some b) after lrps)[i]? = some after) ∧
    (∀ (i : Nat) (r : ActualLRP), lrps[i]? = some (some r) →
      r.ActualLRPInstanceKey ≠ b.ActualLRPInstanceKey →
        (RecordChange (some b) after lrps)[i]? = some (some r)) ∧
    (∀ i : Nat, lrps[i]? = some none →
        (RecordChange (some b) after lrps)[i]? = some none) := by
  have hany : lrps.any (isReplacedEntry (some b)) = true := by
    obtain ⟨r, hr, hk⟩ := hfound
    exact List.any_eq_true.mpr ⟨some r, hr, by simp [isReplacedEntry, ActualLRPInstanceKey.Equal, hk]⟩
  rw [recordChange_eq, hany]
  simp only [if_true]
  refine ⟨by simp, ?_, ?_, ?_⟩
  · intro i r hi hk
    simp [List.getElem?_map, hi, isReplacedEntry, ActualLRPInstanceKey.Equal, hk]
  · intro i r hi hk
    simp [List.getElem?_map, hi, isReplacedEntry, ActualLRPInstanceKey.Equal, hk]
  · intro i hi
    simp [List.getElem?_map, hi, isReplacedEntry]

/-- Witness of claim C15: the Claimed record of a working set with a removal
marker and a second instance is replaced by the Running record. -/
theorem recordChange_replaces_witness :
    RecordChange (some lrpClaimed) (some lrpRunning) [none, some lrpClaimed, some lrpReplacement]
      = [none, some lrpRunning, some lrpReplacement] ∧
    (RecordChange (some lrpClaimed) (some lrpRunning)
      [none, some lrpClaimed, some lrpReplacement]).length = 3 :=
  ⟨by decide,
   (recordChange_replaces lrpClaimed (some lrpRunning)
      [none, some lrpClaimed, some lrpReplacement] ⟨lrpClaimed, by decide, rfl⟩).1⟩

/-- Claim C16: if `before` is nil, or no non-nil entry of the working set has
an instance key equal to that of `before`, then
`RecordChange(before, after, lrps)` is `lrps` with `after` appended as the last
element. -/
theorem recordChange_appends (before after : Option ActualLRP) (lrps : List (Option ActualLRP))
    (h : before = none ∨ ∀ b r, before = some b → some r ∈ lrps →
      r.ActualLRPInstanceKey ≠ b.ActualLRPInstanceKey) :
    RecordChange before after lrps = lrps ++ [after] ∧
    (RecordChange before after lrps).length = lrps.length + 1 ∧
    (∀ (i : Nat) (l : Option ActualLRP), lrps[i]? = some l →
      (RecordChange before after lrps)[i]? = some l) ∧
    (RecordChange before after lrps)[lrps.length]? = some after := by
  have hany : lrps.any (isReplacedEntry before) = false := by
    rw [Bool.eq_false_iff]
    intro hcon
    obtain ⟨l, hl, hrep⟩ := List.any_eq_true.mp hcon
    cases l with
    | none => simp [isReplacedEntry] at hrep
    | some r =>
      cases hb : before with
      | none => rw [hb] at hrep; simp [isReplacedEntry] at hrep
      | some b =>
        rw [hb] at hrep
        rcases h with h | h
        · rw [hb] at h; exact Option.noConfusion h
        · exact h b r hb hl (by simpa [isReplacedEntry, ActualLRPInstanceKey.Equal] using hrep)
  have heq : RecordChange before after lrps = lrps ++ [after] := by
    rw [recordChange_eq, hany]; simp
  refine ⟨heq, by rw [heq]; simp, ?_, by rw [heq]; simp⟩
  intro i l hi
  rw [heq]
  have hlt : i < lrps.length := by
    by_contra hcon
    rw [List.getElem?_eq_none (Nat.le_of_not_lt hcon)] at hi
    exact Option.noConfusion hi
  rw [List.getElem?_append_left hlt]
  exact hi

/-- Witness of claim C16: a nil `before` (a new record) after a removal
marker. -/
theorem recordChange_appends_witness :
    RecordChange none (some lrpRunning) [none] = [none, some lrpRunning] :=
  (recordChange_appends none (some lrpRunning) [none] (Or.inl rfl)).1

/-! ## Event kinds -/

theorem eventType_injective (e₁ e₂ : Event) (s : String)
    (h₁ : e₁.EventType = some s) (h₂ : e₂.EventType = some s) : e₁.variant = e₂.variant := by
  cases e₁ <;> simp [Event.EventType] at h₁ <;> subst h₁ <;>
    cases e₂ <;> simp [Event.EventType] at h₂ <;>
    first
      | rfl
      | (exfalso; revert h₂; decide)

/-- Claim C20: `EventType()` of each of the thirteen variants of
`models/events.go` returns, whatever the payload, the kind string the wire
taxonomy lists for it, and two events of different variants never return the
same string. -/
theorem eventType_taxonomy :
    (∀ d, (Event.DesiredLRPCreated d).EventType = some "desired_lrp_created") ∧
    (∀ b a, (Event.DesiredLRPChanged b a).EventType = some "desired_lrp_changed") ∧
    (∀ d, (Event.DesiredLRPRemoved d).EventType = some "desired_lrp_removed") ∧
    (∀ g, (Event.ActualLRPCreated g).EventType = some "actual_lrp_created") ∧
    (∀ b a, (Event.ActualLRPChanged b a).EventType = some "actual_lrp_changed") ∧
    (∀ g, (Event.ActualLRPRemoved g).EventType = some "actual_lrp_removed") ∧
    (∀ c, (Event.ActualLRPCrashed c).EventType = some "actual_lrp_crashed") ∧
    (∀ l, (Event.FlattenedActualLRPCreated l).EventType
      = some "flattened_actual_lrp_created") ∧
    (∀ c, (Event.FlattenedActualLRPChanged c).EventType
      = some "flattened_actual_lrp_changed") ∧
    (∀ l, (Event.FlattenedActualLRPRemoved l).EventType
      = some "flattened_actual_lrp_removed") ∧
    (∀ t, (Event.TaskCreated t).EventType = some "task_created") ∧
    (∀ b a, (Event.TaskChanged b a).EventType = some "task_changed") ∧
    (∀ t, (Event.TaskRemoved t).EventType = some "task_removed") ∧
    (∀ (e : Event) (s : String), e.EventType = some s → s ∈ wireTaxonomy) ∧
    (∀ (e₁ e₂ : Event) (s : String),
      e₁.EventType = some s → e₂.EventType = some s → e₁.variant = e₂.variant) := by
  refine ⟨fun _ => rfl, fun _ _ => rfl, fun _ => rfl, fun _ => rfl, fun _ _ => rfl,
    fun _ => rfl, fun _ => rfl, fun _ => rfl, fun _ => rfl, fun _ => rfl, fun _ => rfl,
    fun _ _ => rfl, fun _ => rfl, ?_, eventType_injective⟩
  intro e s h
  cases e <;> simp [Event.EventType] at h <;> subst h <;> decide

/-! ## Totality -/

theorem generateLRPInstanceEventsChecked_eq (b a : Option ActualLRP) :
    generateLRPInstanceEventsChecked b a = some (generateLRPInstanceEvents b a) := by
  cases b <;> cases a <;>
    simp [generateLRPInstanceEventsChecked, generateLRPInstanceEvents,
      generateUnclaimedInstanceEventsChecked, generateUnclaimedInstanceEvents,
      generateCrashedInstanceEventsChecked, generateCrashedInstanceEvents,
      generateUpdateInstanceEventsChecked, generateUpdateInstanceEvents,
      NewActualLRPCrashedEventChecked, ActualLRP.Equal]
  split_ifs <;> simp

theorem generateLRPInstanceGroupEventsChecked_eq (b a : Option ActualLRP) :
    generateLRPInstanceGroupEventsChecked b a = some (generateLRPInstanceGroupEvents b a) := by
  cases b <;> cases a <;>
    simp [generateLRPInstanceGroupEventsChecked, generateLRPInstanceGroupEvents,
      generateUnclaimedGroupEventsChecked, generateUnclaimedGroupEvents,
      generateCrashedGroupEventsChecked, generateCrashedGroupEvents,
      generateUpdateGroupEventsChecked, generateUpdateGroupEvents,
      NewActualLRPCrashedEventChecked, ActualLRP.Equal]
  split_ifs <;> simp

theorem generateLRPGroupEventsChecked_eq (before after : ActualLRPGroup) :
    generateLRPGroupEventsChecked before after = some (generateLRPGroupEvents before after) := by
  simp [generateLRPGroupEventsChecked, generateLRPGroupEvents,
    generateLRPInstanceGroupEventsChecked_eq]

theorem collectInstanceEventsChecked_eq (bs as : List (Option ActualLRP)) (i : Nat)
    (hlen : i + as.length ≤ bs.length) :
    collectInstanceEventsChecked bs i as = some (collectInstanceEvents (bs.drop i) as) := by
  induction as generalizing i with
  | nil =>
    cases h : bs.drop i <;> simp [collectInstanceEventsChecked, collectInstanceEvents]
  | cons a rest ih =>
    have hi : i < bs.length := by simp at hlen; omega
    have hrest : i + 1 + rest.length ≤ bs.length := by simp at hlen; omega
    rw [List.drop_eq_getElem_cons hi]
    simp [collectInstanceEventsChecked, collectInstanceEvents, List.getElem?_eq_getElem hi,
      generateLRPInstanceEventsChecked_eq, ih (i + 1) hrest]

theorem length_le_stretchSlice (before after : List (Option ActualLRP)) :
    after.length ≤ (stretchSlice before after).length := by
  unfold stretchSlice
  split_ifs with h
  · simp; omega
  · omega

/-- Claim C17: `EmitEvents` never fails. For every `before` and `after`, empty
or with nil entries in either of them, the call on pointers succeeds and gives
the events of `EmitEvents`: the loop reads `beforeSet[i]` within the stretched
slice only, and every per-position instance diff and every per-slot group diff
is defined, reading no field of a nil record. -/
theorem emitEvents_total (before after : List (Option ActualLRP)) :
    EmitEventsChecked before after = some (EmitEvents before after) ∧
    (∀ b a : Option ActualLRP,
      generateLRPInstanceEventsChecked b a = some (generateLRPInstanceEvents b a)) ∧
    (∀ b a : Option ActualLRP,
      generateLRPInstanceGroupEventsChecked b a = some (generateLRPInstanceGroupEvents b a)) ∧
    (∀ g g2 : ActualLRPGroup,
      generateLRPGroupEventsChecked g g2 = some (generateLRPGroupEvents g g2)) ∧
    (∀ i : Nat, i < after.length → ∃ b, (stretchSlice before after)[i]? = some b) ∧
    EmitEventsChecked [none, some lrpRunning] [none, none, some lrpReplacement]
      = some (EmitEvents [none, some lrpRunning] [none, none, some lrpReplacement]) := by
  refine ⟨?_, generateLRPInstanceEventsChecked_eq, generateLRPInstanceGroupEventsChecked_eq,
    generateLRPGroupEventsChecked_eq, stretchSlice_getElem_of_lt before after, by decide⟩
  have hcollect := collectInstanceEventsChecked_eq (stretchSlice before after) after 0
    (by have := length_le_stretchSlice before after; omega)
  simp only [List.drop_zero] at hcollect
  simp [EmitEventsChecked, EmitEvents, generateLRPGroupEventsChecked_eq, hcollect]

/-! ## The comparator as an order -/

theorem eventClass_eq_one_iff (e : Event) : eventClass e = 1 ↔ e.hasRunningResult = true := by
  constructor
  · intro h
    cases e <;> simp [eventClass, getEventLRP] at h <;>
      simp [Event.hasRunningResult, Event.isCreation, Event.isChange, getEventLRP] <;>
      first
        | exact h
        | (split at h <;> simp_all)
  · exact eventClass_of_hasRunningResult e

theorem eventClass_eq_two_iff (e : Event) : eventClass e = 2 ↔ e.hasOtherResult = true := by
  constructor
  · intro h
    cases e <;> simp [eventClass, getEventLRP] at h <;>
      simp [Event.hasOtherResult, Event.isCreation, Event.isChange, getEventLRP] <;>
      first
        | exact h
        | (split at h <;> simp_all)
  · exact eventClass_of_hasOtherResult e

theorem eventClass_eq_three_iff (e : Event) :
    eventClass e = 3 ↔ getEventLRP e = (none, false) := by
  unfold eventClass
  rcases getEventLRP e with ⟨l, c⟩
  cases c <;> cases l <;> simp
  split_ifs <;> simp

/-- Claim C25: `shouldEventComeFirst(i, j)` holds exactly when
`class(i) < class(j)`, where the class of an event is 0 for a crashed event, 1
for a created or changed event whose resulting record is Running, 2 for a
created or changed event whose resulting record is not Running, and 3 for an
event without a resulting record (a removed event); hence the comparator is
irreflexive, asymmetric and transitive. -/
theorem shouldEventComeFirst_strict_order :
    (∀ i j : Event, shouldEventComeFirst i j = true ↔ eventClass i < eventClass j) ∧
    (∀ e : Event, eventClass e = 0 ↔ e.isCrashed = true) ∧
    (∀ e : Event, eventClass e = 1 ↔ e.hasRunningResult = true) ∧
    (∀ e : Event, eventClass e = 2 ↔ e.hasOtherResult = true) ∧
    (∀ e : Event, eventClass e = 3 ↔ getEventLRP e = (none, false)) ∧
    (∀ e : Event, e.isRemoval = true → eventClass e = 3) ∧
    (∀ e : Event, eventClass e ≤ 3) ∧
    (∀ i : Event, shouldEventComeFirst i i = false) ∧
    (∀ i j : Event, shouldEventComeFirst i j = true → shouldEventComeFirst j i = false) ∧
    (∀ i j k : Event, shouldEventComeFirst i j = true → shouldEventComeFirst j k = true →
      shouldEventComeFirst i k = true) := by
  refine ⟨?_, eventClass_eq_zero_iff, eventClass_eq_one_iff, eventClass_eq_two_iff,
    eventClass_eq_three_iff, eventClass_of_isRemoval, eventClass_le_three, ?_, ?_, ?_⟩
  · intro i j
    rw [shouldEventComeFirst_eq_class]
    simp
  · intro i
    rw [shouldEventComeFirst_eq_class]
    simp
  · intro i j h
    rw [shouldEventComeFirst_eq_class] at h ⊢
    simp at h ⊢
    omega
  · intro i j k h1 h2
    rw [shouldEventComeFirst_eq_class] at h1 h2 ⊢
    simp at h1 h2 ⊢
    omega

/-- Witness of claim C25: a crashed event comes before a removal, and not the
other way round. -/
theorem shouldEventComeFirst_strict_order_witness :
    shouldEventComeFirst (NewActualLRPInstanceRemovedEvent lrpRunning)
      (NewActualLRPCrashedEvent lrpRunning lrpCrashed) = false :=
  shouldEventComeFirst_strict_order.2.2.2.2.2.2.2.2.1
    (NewActualLRPCrashedEvent lrpRunning lrpCrashed)
    (NewActualLRPInstanceRemovedEvent lrpRunning) (by decide)

/-! ## Undefined diffs -/

/-- Claim C26: for non-nil records `X ≠ Y` where `Y.State` is none of
Unclaimed, Claimed, Running, Crashed, the instance-hub diff and the group-hub
slot diff are both empty, and neither fails: the diffs on pointers succeed with
the empty list. -/
theorem undefined_state_diffs_empty (X Y : ActualLRP) (hne : X ≠ Y)
    (hU : Y.State ≠ ActualLRPStateUnclaimed) (hC : Y.State ≠ ActualLRPStateClaimed)
    (hR : Y.State ≠ ActualLRPStateRunning) (hX : Y.State ≠ ActualLRPStateCrashed) :
    generateLRPInstanceEvents (some X) (some Y) = [] ∧
    generateLRPInstanceGroupEvents (some X) (some Y) = [] ∧
    generateLRPInstanceEventsChecked (some X) (some Y) = some [] ∧
    generateLRPInstanceGroupEventsChecked (some X) (some Y) = some [] := by
  have h1 : generateLRPInstanceEvents (some X) (some Y) = [] := by
    simp [generateLRPInstanceEvents, ActualLRP.Equal, hne, hU, hR, hX]
  have h2 : generateLRPInstanceGroupEvents (some X) (some Y) = [] := by
    simp [generateLRPInstanceGroupEvents, ActualLRP.Equal, hne, hU, hC, hR, hX]
  refine ⟨h1, h2, ?_, ?_⟩
  · rw [generateLRPInstanceEventsChecked_eq, h1]
  · rw [generateLRPInstanceGroupEventsChecked_eq, h2]

/-- Witness of claim C26: the after record has the state `"INVALID"`. -/
theorem undefined_state_diffs_empty_witness :
    generateLRPInstanceEvents (some lrpRunning) (some lrpInvalidState) = [] ∧
    generateLRPInstanceGroupEvents (some lrpRunning) (some lrpInvalidState) = [] :=
  ⟨(undefined_state_diffs_empty lrpRunning lrpInvalidState (by decide) (by decide) (by decide)
      (by decide) (by decide)).1,
   (undefined_state_diffs_empty lrpRunning lrpInvalidState (by decide) (by decide) (by decide)
      (by decide) (by decide)).2.1⟩

/-! ## Flattened changed events and crashed events -/

/-- Claim C27: for non-nil `before` and `after`,
`BeforeAndAfter(NewFlattenedActualLRPChangedEvent(before, after))` returns two
records `b` and `a`; both carry the key and the instance key of `after`, `b`
carries the net info, crash count, crash reason, state, placement state,
placement error, since and modification tag of `before`, and `a` those of
`after`. So when `before` and `after` have the same key and instance key, `b`
agrees with `before` and `a` with `after` on all these fields; when the keys
differ, `b` carries the keys of `after`, not those of `before`. -/
theorem beforeAndAfter_roundtrip (before after : ActualLRP) :
    ∃ b a : ActualLRP,
      FlattenedActualLRPChangedEvent.BeforeAndAfter
        (NewFlattenedActualLRPChangedEvent (some before) (some after)) = (some b, some a) ∧
      b.ActualLRPKey = after.ActualLRPKey ∧
      b.ActualLRPInstanceKey = after.ActualLRPInstanceKey ∧
      b.ActualLRPNetInfo = before.ActualLRPNetInfo ∧
      b.CrashCount = before.CrashCount ∧
      b.CrashReason = before.CrashReason ∧
      b.State = before.State ∧
      b.PlacementState = before.PlacementState ∧
      b.PlacementError = before.PlacementError ∧
      b.Since = before.Since ∧
      b.ModificationTag = before.ModificationTag ∧
      a.ActualLRPKey = after.ActualLRPKey ∧
      a.ActualLRPInstanceKey = after.ActualLRPInstanceKey ∧
      a.ActualLRPNetInfo = after.ActualLRPNetInfo ∧
      a.CrashCount = after.CrashCount ∧
      a.CrashReason = after.CrashReason ∧
      a.State = after.State ∧
      a.PlacementState = after.PlacementState ∧
      a.PlacementError = after.PlacementError ∧
      a.Since = after.Since ∧
      a.ModificationTag = after.ModificationTag ∧
      (before.ActualLRPKey = after.ActualLRPKey →
        before.ActualLRPInstanceKey = after.ActualLRPInstanceKey →
        b.ActualLRPKey = before.ActualLRPKey ∧
        b.ActualLRPInstanceKey = before.ActualLRPInstanceKey) ∧
      (before.ActualLRPKey ≠ after.ActualLRPKey → b.ActualLRPKey ≠ before.ActualLRPKey) ∧
      (before.ActualLRPInstanceKey ≠ after.ActualLRPInstanceKey →
        b.ActualLRPInstanceKey ≠ before.ActualLRPInstanceKey) := by
  refine ⟨_, _, rfl, rfl, rfl, rfl, rfl, rfl, rfl, rfl, rfl, rfl, rfl, rfl, rfl, rfl, rfl, rfl,
    rfl, rfl, rfl, rfl, rfl, ?_, ?_, ?_⟩
  · intro hk hik
    exact ⟨hk.symm, hik.symm⟩
  · intro hk h
    exact hk h.symm
  · intro hik h
    exact hik h.symm

/-- Witness of claim C27: a claim transition, where the instance keys differ:
the returned before record carries the instance key of the Claimed record, not
the empty one of the Unclaimed record. -/
theorem beforeAndAfter_roundtrip_witness :
    ∃ b a : ActualLRP,
      FlattenedActualLRPChangedEvent.BeforeAndAfter
        (NewFlattenedActualLRPChangedEvent (some lrpUnclaimed) (some lrpClaimed))
        = (some b, some a) ∧
      b.ActualLRPInstanceKey = lrpClaimed.ActualLRPInstanceKey ∧
      b.ActualLRPInstanceKey ≠ lrpUnclaimed.ActualLRPInstanceKey ∧
      b.State = ActualLRPStateUnclaimed := by
  obtain ⟨b, a, h, -, h2, -, -, -, hs, -, -, -, -, -, -, -, -, -, -, -, -, -, -, -, -, h3⟩ :=
    beforeAndAfter_roundtrip lrpUnclaimed lrpClaimed
  exact ⟨b, a, h, h2, h3 (by decide), hs⟩

/-- Claim C28: for non-nil `before` and `after`,
`NewActualLRPCrashedEvent(before, after)` carries the instance key of `before`
and the key, crash count, crash reason and since of `after`; its `Key()` is the
instance guid of `before`, whatever the instance key of `after`; and
`NewFlattenedActualLRPCrashedEvent(before, after)` is the same event. -/
theorem crashed_event_fields (before after : ActualLRP) :
    ∃ c : ActualLRPCrashedEvent,
      NewActualLRPCrashedEvent before after = Event.ActualLRPCrashed c ∧
      c.ActualLRPInstanceKey = before.ActualLRPInstanceKey ∧
      c.ActualLRPKey = after.ActualLRPKey ∧
      c.CrashCount = after.CrashCount ∧
      c.CrashReason = after.CrashReason ∧
      c.Since = after.Since ∧
      c.Key = before.ActualLRPInstanceKey.InstanceGuid ∧
      NewFlattenedActualLRPCrashedEvent before after = NewActualLRPCrashedEvent before after :=
  ⟨_, rfl, rfl, rfl, rfl, rfl, rfl, rfl, rfl⟩

/-! ## `RecordChange` with several matches -/

/-- Claim C29: `RecordChange` compares instance keys only and replaces every
entry that matches: the result is the working set with `after` at each non-nil
entry whose instance key equals that of `before` (or, without such an entry,
the working set followed by `after`). For the working set of an Ordinary and an
Evacuating record that share one instance key, `RecordChange(ordinary, after,
lrps)` holds `after` at both positions and the Evacuating record is gone. -/
theorem recordChange_every_match :
    (∀ (before after : Option ActualLRP) (lrps : List (Option ActualLRP)),
      RecordChange before after lrps =
        if lrps.any (isReplacedEntry before) then
          lrps.map (fun l => if isReplacedEntry before l then after else l)
        else lrps ++ [after]) ∧
    (∀ b r : ActualLRP, isReplacedEntry (some b) (some r) = true ↔
      r.ActualLRPInstanceKey = b.ActualLRPInstanceKey) ∧
    lrpRunning.Presence = Presence.Ordinary ∧
    lrpEvacuating.Presence = Presence.Evacuating ∧
    lrpRunning.ActualLRPKey = lrpEvacuating.ActualLRPKey ∧
    lrpRunning.ActualLRPInstanceKey = lrpEvacuating.ActualLRPInstanceKey ∧
    RecordChange (some lrpRunning) (some lrpCrashed) [some lrpRunning, some lrpEvacuating]
      = [some lrpCrashed, some lrpCrashed] ∧
    some lrpEvacuating ∉
      RecordChange (some lrpRunning) (some lrpCrashed) [some lrpRunning, some lrpEvacuating] := by
  refine ⟨recordChange_eq, ?_, rfl, rfl, rfl, rfl, by decide, by decide⟩
  intro b r
  simp [isReplacedEntry, ActualLRPInstanceKey.Equal]

/-! ## Task convergence -/

theorem convergeTasks_cons (row : TaskRow) (rest : List TaskRow) (now : Int)
    (cellSet : List String) (kick expP expC : Int) :
    ConvergeTasks (row :: rest) now cellSet kick expP expC =
      (convergeRow now cellSet kick expP expC row).append
        (ConvergeTasks rest now cellSet kick expP expC) := rfl

theorem mem_convergeTasks_events (store : List TaskRow) (now : Int) (cellSet : List String)
    (kick expP expC : Int) (e : Event) :
    e ∈ (ConvergeTasks store now cellSet kick expP expC).Result.Events ↔
      ∃ row ∈ store, e ∈ (convergeRow now cellSet kick expP expC row).Result.Events := by
  induction store with
  | nil => simp [ConvergeTasks, ConvergenceOutcome.empty]
  | cons hd tl ih => simp [convergeTasks_cons, ConvergenceOutcome.append, ih]

theorem mem_convergeTasks_auction (store : List TaskRow) (now : Int) (cellSet : List String)
    (kick expP expC : Int) (req : AuctionRequest) :
    req ∈ (ConvergeTasks store now cellSet kick expP expC).Result.TasksToAuction ↔
      ∃ row ∈ store,
        req ∈ (convergeRow now cellSet kick expP expC row).Result.TasksToAuction := by
  induction store with
  | nil => simp [ConvergeTasks, ConvergenceOutcome.empty]
  | cons hd tl ih => simp [convergeTasks_cons, ConvergenceOutcome.append, ih]

theorem mem_convergeTasks_complete (store : List TaskRow) (now : Int) (cellSet : List String)
    (kick expP expC : Int) (t : Task) :
    t ∈ (ConvergeTasks store now cellSet kick expP expC).Result.TasksToComplete ↔
      ∃ row ∈ store,
        t ∈ (convergeRow now cellSet kick expP expC row).Result.TasksToComplete := by
  induction store with
  | nil => simp [ConvergeTasks, ConvergenceOutcome.empty]
  | cons hd tl ih => simp [convergeTasks_cons, ConvergenceOutcome.append, ih]

theorem mem_convergeTasks_store (store : List TaskRow) (now : Int) (cellSet : List String)
    (kick expP expC : Int) (r : TaskRow) :
    r ∈ (ConvergeTasks store now cellSet kick expP expC).Store ↔
      ∃ row ∈ store, r ∈ (convergeRow now cellSet kick expP expC row).Store := by
  induction store with
  | nil => simp [ConvergeTasks, ConvergenceOutcome.empty]
  | cons hd tl ih => simp [convergeTasks_cons, ConvergenceOutcome.append, ih]

/-- The sweep never changes the guid of a row. -/
theorem convergeRow_store_guid (now : Int) (cellSet : List String) (kick expP expC : Int)
    (row r : TaskRow) (hr : r ∈ (convergeRow now cellSet kick expP expC row).Store) :
    r.Task.TaskGuid = row.Task.TaskGuid := by
  unfold convergeRow at hr
  cases h : classifyTask now cellSet kick expP expC row <;> simp [h] at hr <;> subst hr <;> rfl

theorem convergeRow_auction_guid (now : Int) (cellSet : List String) (kick expP expC : Int)
    (row : TaskRow) (req : AuctionRequest)
    (hr : req ∈ (convergeRow now cellSet kick expP expC row).Result.TasksToAuction) :
    req.TaskGuid = row.Task.TaskGuid ∧
      classifyTask now cellSet kick expP expC row = TaskAction.Auction := by
  unfold convergeRow at hr
  cases h : classifyTask now cellSet kick expP expC row <;> simp [h] at hr
  subst hr
  exact ⟨rfl, rfl⟩

theorem convergeRow_complete_guid (now : Int) (cellSet : List String) (kick expP expC : Int)
    (row : TaskRow) (t : Task)
    (hr : t ∈ (convergeRow now cellSet kick expP expC row).Result.TasksToComplete) :
    t.TaskGuid = row.Task.TaskGuid ∧
      (classifyTask now cellSet kick expP expC row = TaskAction.Complete ∨
       classifyTask now cellSet kick expP expC row = TaskAction.Demote) := by
  unfold convergeRow at hr
  cases h : classifyTask now cellSet kick expP expC row <;> simp [h] at hr <;> subst hr
  · exact ⟨rfl, Or.inl rfl⟩
  · exact ⟨rfl, Or.inr rfl⟩

/-- With pairwise different guids, a lookup after the sweep sees what the sweep
left of the row with that guid. -/
theorem find_convergeTasks (store : List TaskRow) (now : Int) (cellSet : List String)
    (kick expP expC : Int) (row : TaskRow)
    (hnodup : (store.map (fun r => r.Task.TaskGuid)).Nodup) (hrow : row ∈ store) :
    (ConvergeTasks store now cellSet kick expP expC).Store.find?
        (fun r => decide (r.Task.TaskGuid = row.Task.TaskGuid)) =
      (convergeRow now cellSet kick expP expC row).Store.find?
        (fun r => decide (r.Task.TaskGuid = row.Task.TaskGuid)) := by
  induction store with
  | nil => simp at hrow
  | cons hd tl ih =>
    simp only [List.map_cons, List.nodup_cons] at hnodup
    obtain ⟨hhd, htl⟩ := hnodup
    simp only [convergeTasks_cons, ConvergenceOutcome.append, List.find?_append]
    by_cases heq : row = hd
    · subst heq
      have hnone : (ConvergeTasks tl now cellSet kick expP expC).Store.find?
          (fun r => decide (r.Task.TaskGuid = row.Task.TaskGuid)) = none := by
        rw [List.find?_eq_none]
        intro r hr
        obtain ⟨row2, hrow2, hr2⟩ := (mem_convergeTasks_store tl now cellSet kick expP expC r).mp hr
        have hg := convergeRow_store_guid now cellSet kick expP expC row2 r hr2
        simp only [decide_eq_true_eq]
        intro hcon
        exact hhd (List.mem_map.mpr ⟨row2, hrow2, by rw [← hg, hcon]⟩)
      rw [hnone]
      simp
    · have hmem : row ∈ tl := by
        rcases List.mem_cons.mp hrow with h | h
        · exact absurd h heq
        · exact h
      have hne : hd.Task.TaskGuid ≠ row.Task.TaskGuid := by
        intro hcon
        exact hhd (List.mem_map.mpr ⟨row, hmem, hcon.symm⟩)
      have hnone : (convergeRow now cellSet kick expP expC hd).Store.find?
          (fun r => decide (r.Task.TaskGuid = row.Task.TaskGuid)) = none := by
        rw [List.find?_eq_none]
        intro r hr
        have hg := convergeRow_store_guid now cellSet kick expP expC hd r hr
        simp only [decide_eq_true_eq]
        rw [hg]
        exact hne
      rw [hnone]
      simpa using ih htl hmem

theorem row_eq_of_guid_eq (store : List TaskRow) (row row2 : TaskRow)
    (hnodup : (store.map (fun r => r.Task.TaskGuid)).Nodup) (hrow : row ∈ store)
    (hrow2 : row2 ∈ store) (hg : row2.Task.TaskGuid = row.Task.TaskGuid) : row2 = row :=
  List.inj_on_of_nodup_map hnodup hrow2 hrow hg

/-- With pairwise different guids, `tasksToAuction` holds a request with the
guid of a row only when the row is classified for the auction. -/
theorem auction_guid_classified (store : List TaskRow) (now : Int) (cellSet : List String)
    (kick expP expC : Int) (row : TaskRow)
    (hnodup : (store.map (fun r => r.Task.TaskGuid)).Nodup) (hrow : row ∈ store)
    (req : AuctionRequest)
    (hreq : req ∈ (ConvergeTasks store now cellSet kick expP expC).Result.TasksToAuction)
    (hg : req.TaskGuid = row.Task.TaskGuid) :
    classifyTask now cellSet kick expP expC row = TaskAction.Auction := by
  obtain ⟨row2, hrow2, h2⟩ := (mem_convergeTasks_auction store now cellSet kick expP expC req).mp hreq
  obtain ⟨hg2, hc⟩ := convergeRow_auction_guid now cellSet kick expP expC row2 req h2
  have := row_eq_of_guid_eq store row row2 hnodup hrow hrow2 (by rw [← hg2, hg])
  subst this
  exact hc

theorem complete_guid_classified (store : List TaskRow) (now : Int) (cellSet : List String)
    (kick expP expC : Int) (row : TaskRow)
    (hnodup : (store.map (fun r => r.Task.TaskGuid)).Nodup) (hrow : row ∈ store)
    (t : Task)
    (ht : t ∈ (ConvergeTasks store now cellSet kick expP expC).Result.TasksToComplete)
    (hg : t.TaskGuid = row.Task.TaskGuid) :
    classifyTask now cellSet kick expP expC row = TaskAction.Complete ∨
      classifyTask now cellSet kick expP expC row = TaskAction.Demote := by
  obtain ⟨row2, hrow2, h2⟩ := (mem_convergeTasks_complete store now cellSet kick expP expC t).mp ht
  obtain ⟨hg2, hc⟩ := convergeRow_complete_guid now cellSet kick expP expC row2 t h2
  have := row_eq_of_guid_eq store row row2 hnodup hrow hrow2 (by rw [← hg2, hg])
  subst this
  exact hc

theorem taskByGuid_of_find (store : List TaskRow) (guid : String) (r : TaskRow)
    (h : store.find? (fun x => decide (x.Task.TaskGuid = guid)) = some r)
    (hread : r.DefinitionReadable = true) : TaskByGuid store guid = Except.ok r.Task := by
  simp [TaskByGuid, h, hread]

theorem taskByGuid_of_find_none (store : List TaskRow) (guid : String)
    (h : store.find? (fun x => decide (x.Task.TaskGuid = guid)) = none) :
    TaskByGuid store guid = Except.error StoreError.ErrResourceNotFound := by
  simp [TaskByGuid, h]

/-- Claim C21: after `ConvergeTasks`, a Pending task with a readable definition
whose age is at least `expirePendingInterval` is found in the store in state
Completed with `failed = true`, failure reason "not started within time limit",
an empty result and `updated-at = first-completed-at = now`; the events of the
result contain `TaskChanged(before, after)` for it, and `tasksToAuction` holds
no request for it. The guids of the store are pairwise different. -/
theorem expired_pending_task_failed (store : List TaskRow) (now : Int)
    (cellSet : List String) (kick expP expC : Int) (row : TaskRow)
    (hnodup : (store.map (fun r => r.Task.TaskGuid)).Nodup) (hrow : row ∈ store)
    (hstate : row.Task.State = TaskState.Pending)
    (hread : row.DefinitionReadable = true)
    (hage : expP ≤ now - row.Task.UpdatedAt) :
    ∃ after : Task,
      TaskByGuid (ConvergeTasks store now cellSet kick expP expC).Store row.Task.TaskGuid
        = Except.ok after ∧
      after.TaskGuid = row.Task.TaskGuid ∧
      after.State = TaskState.Completed ∧
      after.Failed = true ∧
      after.FailureReason = "not started within time limit" ∧
      after.Result = "" ∧
      after.UpdatedAt = now ∧
      after.FirstCompletedAt = now ∧
      Event.TaskChanged (some row.Task) (some after)
        ∈ (ConvergeTasks store now cellSet kick expP expC).Result.Events ∧
      ∀ req ∈ (ConvergeTasks store now cellSet kick expP expC).Result.TasksToAuction,
        req.TaskGuid ≠ row.Task.TaskGuid := by
  have hclass : classifyTask now cellSet kick expP expC row = TaskAction.FailExpiredPending := by
    simp [classifyTask, hstate, hread, hage]
  refine ⟨failTask row.Task now reasonNotStarted, ?_, rfl, rfl, rfl, rfl, rfl, rfl, rfl, ?_, ?_⟩
  · apply taskByGuid_of_find _ _ { row with Task := failTask row.Task now reasonNotStarted }
    · rw [find_convergeTasks store now cellSet kick expP expC row hnodup hrow]
      simp [convergeRow, hclass, failTask]
    · exact hread
  · exact (mem_convergeTasks_events store now cellSet kick expP expC _).mpr
      ⟨row, hrow, by simp [convergeRow, hclass]⟩
  · intro req hreq hg
    have := auction_guid_classified store now cellSet kick expP expC row hnodup hrow req hreq hg
    rw [hclass] at this
    exact TaskAction.noConfusion this

/-- Witness of claim C21: the task `pending-expired-task` of the fixture of the
test. -/
theorem expired_pending_task_failed_witness :
    ∃ after : Task,
      TaskByGuid fixtureOutcome.Store "pending-expired-task" = Except.ok after ∧
      after.State = TaskState.Completed ∧
      after.Failed = true ∧
      after.FailureReason = "not started within time limit" ∧
      after.UpdatedAt = fixtureNow := by
  obtain ⟨after, h1, -, h2, h3, h4, -, h5, -⟩ :=
    expired_pending_task_failed fixtureStore fixtureNow fixtureCells fixtureKick
      fixtureExpirePending fixtureExpireCompleted
      (fixtureRow "pending-expired-task" TaskState.Pending "" fixtureExpirePending true)
      (by decide) (by decide) rfl rfl (by decide)
  exact ⟨after, h1, h2, h3, h4, h5⟩

/-- Claim C22, amended: after `ConvergeTasks`, a Running task with a readable
definition whose cell id is not in the cell set is found in the store Completed
with `failed = true` and failure reason "cell disappeared before completion",
and the events of the result contain `TaskChanged(before, after)` for it; a
Running task with a readable definition whose cell id is in the cell set is
found unchanged, in state Running; with an empty cell set every Running task
with a readable definition is failed. The guids of the store are pairwise
different. -/
theorem running_task_cell_check (store : List TaskRow) (now : Int)
    (cellSet : List String) (kick expP expC : Int) (row : TaskRow)
    (hnodup : (store.map (fun r => r.Task.TaskGuid)).Nodup) (hrow : row ∈ store)
    (hstate : row.Task.State = TaskState.Running)
    (hread : row.DefinitionReadable = true) :
    (row.Task.CellId ∉ cellSet →
      ∃ after : Task,
        TaskByGuid (ConvergeTasks store now cellSet kick expP expC).Store row.Task.TaskGuid
          = Except.ok after ∧
        after.State = TaskState.Completed ∧
        after.Failed = true ∧
        after.FailureReason = "cell disappeared before completion" ∧
        after.Result = "" ∧
        after.UpdatedAt = now ∧
        after.FirstCompletedAt = now ∧
        Event.TaskChanged (some row.Task) (some after)
          ∈ (ConvergeTasks store now cellSet kick expP expC).Result.Events) ∧
    (row.Task.CellId ∈ cellSet →
      TaskByGuid (ConvergeTasks store now cellSet kick expP expC).Store row.Task.TaskGuid
        = Except.ok row.Task ∧
      row.Task.State = TaskState.Running) ∧
    (cellSet = [] →
      ∃ after : Task,
        TaskByGuid (ConvergeTasks store now cellSet kick expP expC).Store row.Task.TaskGuid
          = Except.ok after ∧
        after.State = TaskState.Completed ∧
        after.Failed = true ∧
        after.FailureReason = "cell disappeared before completion" ∧
        Event.TaskChanged (some row.Task) (some after)
          ∈ (ConvergeTasks store now cellSet kick expP expC).Result.Events) := by
  have hfail : row.Task.CellId ∉ cellSet →
      TaskByGuid (ConvergeTasks store now cellSet kick expP expC).Store row.Task.TaskGuid
        = Except.ok (failTask row.Task now reasonCellDisappeared) ∧
      Event.TaskChanged (some row.Task) (some (failTask row.Task now reasonCellDisappeared))
        ∈ (ConvergeTasks store now cellSet kick expP expC).Result.Events := by
    intro hcell
    have hclass : classifyTask now cellSet kick expP expC row
        = TaskAction.FailCellDisappeared := by
      simp [classifyTask, hstate, hread, hcell]
    constructor
    · apply taskByGuid_of_find _ _ { row with Task := failTask row.Task now reasonCellDisappeared }
      · rw [find_convergeTasks store now cellSet kick expP expC row hnodup hrow]
        simp [convergeRow, hclass, failTask]
      · exact hread
    · exact (mem_convergeTasks_events store now cellSet kick expP expC _).mpr
        ⟨row, hrow, by simp [convergeRow, hclass]⟩
  refine ⟨?_, ?_, ?_⟩
  · intro hcell
    exact ⟨_, (hfail hcell).1, rfl, rfl, rfl, rfl, rfl, rfl, (hfail hcell).2⟩
  · intro hcell
    have hclass : classifyTask now cellSet kick expP expC row = TaskAction.Leave := by
      simp [classifyTask, hstate, hread, hcell]
    refine ⟨?_, hstate⟩
    apply taskByGuid_of_find _ _ row
    · rw [find_convergeTasks store now cellSet kick expP expC row hnodup hrow]
      simp [convergeRow, hclass]
    · exact hread
  · intro hempty
    have hcell : row.Task.CellId ∉ cellSet := by rw [hempty]; simp
    exact ⟨_, (hfail hcell).1, rfl, rfl, rfl, (hfail hcell).2⟩

/-- Witness of the amended claim C22: the tasks `running-task-no-cell` and `running-task`
of the fixture of the test. -/
theorem running_task_cell_check_witness :
    (∃ after : Task,
      TaskByGuid fixtureOutcome.Store "running-task-no-cell" = Except.ok after ∧
      after.State = TaskState.Completed ∧
      after.FailureReason = "cell disappeared before completion") ∧
    (∃ t : Task, TaskByGuid fixtureOutcome.Store "running-task" = Except.ok t ∧
      t.State = TaskState.Running) := by
  obtain ⟨after, h1, h2, -, h3, -⟩ :=
    (running_task_cell_check fixtureStore fixtureNow fixtureCells fixtureKick
      fixtureExpirePending fixtureExpireCompleted
      (fixtureRow "running-task-no-cell" TaskState.Running "non-existant-cell" 0 true)
      (by decide) (by decide) rfl rfl).1 (by decide)
  obtain ⟨h4, h5⟩ :=
    (running_task_cell_check fixtureStore fixtureNow fixtureCells fixtureKick
      fixtureExpirePending fixtureExpireCompleted
      (fixtureRow "running-task" TaskState.Running "existing-cell" 0 true)
      (by decide) (by decide) rfl rfl).2.1 (by decide)
  exact ⟨⟨after, h1, h2, h3⟩, ⟨_, h4, h5⟩⟩

/-- Claim C23: after `ConvergeTasks`, a task in state Pending, Running,
Completed or Resolving whose task definition cannot be decoded is gone from the
store (the lookup returns the not-found error), and neither `tasksToAuction`
nor `tasksToComplete` holds an entry for it. The guids of the store are
pairwise different. -/
theorem unreadable_task_deleted (store : List TaskRow) (now : Int)
    (cellSet : List String) (kick expP expC : Int) (row : TaskRow)
    (hnodup : (store.map (fun r => r.Task.TaskGuid)).Nodup) (hrow : row ∈ store)
    (hunreadable : row.DefinitionReadable = false)
    (hstate : row.Task.State = TaskState.Pending ∨ row.Task.State = TaskState.Running ∨
      row.Task.State = TaskState.Completed ∨ row.Task.State = TaskState.Resolving) :
    TaskByGuid (ConvergeTasks store now cellSet kick expP expC).Store row.Task.TaskGuid
      = Except.error StoreError.ErrResourceNotFound ∧
    (∀ req ∈ (ConvergeTasks store now cellSet kick expP expC).Result.TasksToAuction,
      req.TaskGuid ≠ row.Task.TaskGuid) ∧
    (∀ t ∈ (ConvergeTasks store now cellSet kick expP expC).Result.TasksToComplete,
      t.TaskGuid ≠ row.Task.TaskGuid) := by
  have hclass : classifyTask now cellSet kick expP expC row = TaskAction.DeleteSilently ∨
      classifyTask now cellSet kick expP expC row = TaskAction.Delete := by
    rcases hstate with h | h | h | h <;> simp [classifyTask, h, hunreadable]
  refine ⟨?_, ?_, ?_⟩
  · apply taskByGuid_of_find_none
    rw [find_convergeTasks store now cellSet kick expP expC row hnodup hrow]
    rcases hclass with h | h <;> simp [convergeRow, h]
  · intro req hreq hg
    have := auction_guid_classified store now cellSet kick expP expC row hnodup hrow req hreq hg
    rcases hclass with h | h <;> rw [h] at this <;> exact TaskAction.noConfusion this
  · intro t ht hg
    have := complete_guid_classified store now cellSet kick expP expC row hnodup hrow t ht hg
    rcases hclass with h | h <;> rw [h] at this <;>
      rcases this with h2 | h2 <;> exact TaskAction.noConfusion h2

/-- Witness of claim C23: the task `pending-kickable-invalid-task` of the
fixture of the test. -/
theorem unreadable_task_deleted_witness :
    TaskByGuid fixtureOutcome.Store "pending-kickable-invalid-task"
      = Except.error StoreError.ErrResourceNotFound :=
  (unreadable_task_deleted fixtureStore fixtureNow fixtureCells fixtureKick
    fixtureExpirePending fixtureExpireCompleted
    (fixtureRow "pending-kickable-invalid-task" TaskState.Pending "" fixtureKick false)
    (by decide) (by decide) rfl (Or.inl rfl)).1

/-! ### The two counters -/

theorem convergeRow_counts (now : Int) (cellSet : List String) (kick expP expC : Int)
    (row : TaskRow) :
    (convergeRow now cellSet kick expP expC row).TasksKicked =
      (convergeRow now cellSet kick expP expC row).Result.TasksToAuction.length +
      (convergeRow now cellSet kick expP expC row).Result.TasksToComplete.length +
      demotedCount now cellSet kick expP expC [row] ∧
    (convergeRow now cellSet kick expP expC row).TasksPruned +
      (convergeRow now cellSet kick expP expC row).Store.length =
      1 + failedCount now cellSet kick expP expC [row] := by
  unfold convergeRow demotedCount failedCount
  cases h : classifyTask now cellSet kick expP expC row <;>
    simp [h, kickedDelta, prunedDelta, List.countP_cons]

theorem demotedCount_cons (now : Int) (cellSet : List String) (kick expP expC : Int)
    (row : TaskRow) (rest : List TaskRow) :
    demotedCount now cellSet kick expP expC (row :: rest) =
      demotedCount now cellSet kick expP expC [row] +
        demotedCount now cellSet kick expP expC rest := by
  simp [demotedCount, List.countP_cons]
  omega

theorem failedCount_cons (now : Int) (cellSet : List String) (kick expP expC : Int)
    (row : TaskRow) (rest : List TaskRow) :
    failedCount now cellSet kick expP expC (row :: rest) =
      failedCount now cellSet kick expP expC [row] +
        failedCount now cellSet kick expP expC rest := by
  simp [failedCount, List.countP_cons]
  omega

/-- The two counters of a sweep: the kicked tasks are the entries of the two
work lists and the demoted tasks; the pruned tasks are the deleted and the
failed ones. -/
theorem convergeTasks_counts (store : List TaskRow) (now : Int) (cellSet : List String)
    (kick expP expC : Int) :
    (ConvergeTasks store now cellSet kick expP expC).TasksKicked =
      (ConvergeTasks store now cellSet kick expP expC).Result.TasksToAuction.length +
      (ConvergeTasks store now cellSet kick expP expC).Result.TasksToComplete.length +
      demotedCount now cellSet kick expP expC store ∧
    (ConvergeTasks store now cellSet kick expP expC).TasksPruned +
      (ConvergeTasks store now cellSet kick expP expC).Store.length =
      store.length + failedCount now cellSet kick expP expC store := by
  induction store with
  | nil => simp [ConvergeTasks, ConvergenceOutcome.empty, demotedCount, failedCount]
  | cons hd tl ih =>
    obtain ⟨h1, h2⟩ := convergeRow_counts now cellSet kick expP expC hd
    obtain ⟨ih1, ih2⟩ := ih
    rw [demotedCount_cons, failedCount_cons]
    simp only [convergeTasks_cons, ConvergenceOutcome.append, List.length_append,
      List.length_cons]
    constructor
    · omega
    · omega

/-- Counterexample to claim C24: on the fixture of the test, `tasksToAuction`
has one entry, `tasksToComplete` two, and one Resolving task is demoted, so the
delta of `ConvergenceTasksKicked` is 4, not 7; eight tasks are deleted and
three are failed, so the delta of `ConvergenceTasksPruned` is 11, not 8. The
sum of the claim and its two constants do not hold together. -/
theorem kicked_counter_counterexample :
    fixtureOutcome.Result.TasksToAuction.length = 1 ∧
    fixtureOutcome.Result.TasksToComplete.length = 2 ∧
    demotedCount fixtureNow fixtureCells fixtureKick fixtureExpirePending
      fixtureExpireCompleted fixtureStore = 1 ∧
    fixtureOutcome.TasksKicked = 4 ∧
    fixtureStore.length - fixtureOutcome.Store.length = 8 ∧
    failedCount fixtureNow fixtureCells fixtureKick fixtureExpirePending
      fixtureExpireCompleted fixtureStore = 3 ∧
    fixtureOutcome.TasksPruned = 11 ∧
    ¬ ((∀ (store : List TaskRow) (now : Int) (cellSet : List String) (kick expP expC : Int),
        (ConvergeTasks store now cellSet kick expP expC).TasksKicked =
          (ConvergeTasks store now cellSet kick expP expC).Result.TasksToAuction.length +
          (ConvergeTasks store now cellSet kick expP expC).Result.TasksToComplete.length +
          demotedCount now cellSet kick expP expC store) ∧
       fixtureOutcome.TasksKicked = 7 ∧
       fixtureOutcome.TasksPruned = 8) := by
  refine ⟨by decide, by decide, by decide, by decide, by decide, by decide, by decide, ?_⟩
  rintro ⟨-, h7, -⟩
  revert h7
  decide

/-- Claim C24, amended: for every `ConvergeTasks` run, the delta reported for
`ConvergenceTasksKicked` is the number of entries of `tasksToAuction` plus the
number of entries of `tasksToComplete` plus the number of Resolving tasks
demoted to Completed. -/
theorem kicked_counter_sum (store : List TaskRow) (now : Int) (cellSet : List String)
    (kick expP expC : Int) :
    (ConvergeTasks store now cellSet kick expP expC).TasksKicked =
      (ConvergeTasks store now cellSet kick expP expC).Result.TasksToAuction.length +
      (ConvergeTasks store now cellSet kick expP expC).Result.TasksToComplete.length +
      demotedCount now cellSet kick expP expC store :=
  (convergeTasks_counts store now cellSet kick expP expC).1

/-- Counterexample to claim C22: with an empty cell set, the Running task
`invalid-running-task-no-cell` of the fixture, whose definition is unreadable,
is not failed: it is deleted, and no `TaskChanged` event is returned for it. -/
theorem running_task_counterexample :
    fixtureRow "invalid-running-task-no-cell" TaskState.Running "non-existant-cell" 0 false
      ∈ fixtureStore ∧
    TaskByGuid
      (ConvergeTasks fixtureStore fixtureNow [] fixtureKick fixtureExpirePending
        fixtureExpireCompleted).Store "invalid-running-task-no-cell"
      = Except.error StoreError.ErrResourceNotFound ∧
    (ConvergeTasks fixtureStore fixtureNow [] fixtureKick fixtureExpirePending
        fixtureExpireCompleted).Result.Events.filter
      (fun e => match e with
        | Event.TaskChanged (some b) _ => decide (b.TaskGuid = "invalid-running-task-no-cell")
        | _ => false) = [] ∧
    ¬ (∀ (store : List TaskRow) (now kick expP expC : Int) (row : TaskRow),
        (store.map (fun r => r.Task.TaskGuid)).Nodup → row ∈ store →
        row.Task.State = TaskState.Running →
          ∃ after : Task,
            TaskByGuid (ConvergeTasks store now [] kick expP expC).Store row.Task.TaskGuid
              = Except.ok after ∧
            after.Failed = true) := by
  refine ⟨by decide, by rfl, by decide, ?_⟩
  intro h
  obtain ⟨after, h1, -⟩ := h fixtureStore fixtureNow fixtureKick fixtureExpirePending
    fixtureExpireCompleted
    (fixtureRow "invalid-running-task-no-cell" TaskState.Running "non-existant-cell" 0 false)
    (by decide) (by decide) rfl
  have h2 : TaskByGuid
      (ConvergeTasks fixtureStore fixtureNow [] fixtureKick fixtureExpirePending
        fixtureExpireCompleted).Store "invalid-running-task-no-cell"
      = Except.error StoreError.ErrResourceNotFound := by rfl
  have h3 : (fixtureRow "invalid-running-task-no-cell" TaskState.Running "non-existant-cell" 0
      false).Task.TaskGuid = "invalid-running-task-no-cell" := rfl
  rw [h3, h2] at h1
  exact Except.noConfusion h1

end BBS
